import Mathlib

/-!
Verification of the PredatorBrowser v2 execution engine against its
specification. The definitions below are a shallow embedding of the Python
sources under `app/core/v2/`: JSON values model Python dicts/lists as they
flow through `json.dumps`, machine hashing (`hashlib.sha256`, `hmac`) is
implemented bit-for-bit over byte lists, and each component
(`contracts.py`, `audit_trail.py`, `action_engine.py`, `resilience.py`,
`network_observer.py`, `token_budget.py`, `predator_v2.py`) is translated
into executable Lean functions. Theorems about the claims follow the
definitions.
-/

/-! ## JSON values

Python `dict`/`list`/`str`/`int`/`float`/`bool`/`None` payloads as they are
fed to `json.dumps`. Dicts are association lists in insertion order (Python
dicts preserve insertion order; keys are unique in every value the model
builds). Python tuples serialise exactly like lists, so both are `arr`.
`fnum` carries a Python float as a rational; the only floats reaching a
serialiser in the modelled code are short terminating decimals such as the
retry multiplier `2.0`. -/

inductive Json where
  | null : Json
  | bool (b : Bool) : Json
  | num (n : Int) : Json
  | fnum (q : ℚ) : Json
  | str (s : String) : Json
  | arr (xs : List Json) : Json
  | obj (kvs : List (String × Json)) : Json

/-- Lowercase hexadecimal digit, as Python prints hash digests and
unicode escapes. -/
def hexDigitChar (n : Nat) : Char :=
  if n < 10 then Char.ofNat (48 + n) else Char.ofNat (87 + n % 16)

/-- A `\uXXXX` escape for one UTF-16 code unit. -/
def uEsc (n : Nat) : List Char :=
  [Char.ofNat 92, 'u', hexDigitChar (n / 4096 % 16), hexDigitChar (n / 256 % 16),
   hexDigitChar (n / 16 % 16), hexDigitChar (n % 16)]

/-- Source: `json.dumps` escaping of one character with `ensure_ascii=True`:
quote and backslash get two-character escapes, the five named control
characters likewise, other control characters and every non-ASCII
character become `\uXXXX` (a surrogate pair above U+FFFF). -/
def escChar (c : Char) : List Char :=
  let n := c.toNat
  if n = 34 then [Char.ofNat 92, Char.ofNat 34]
  else if n = 92 then [Char.ofNat 92, Char.ofNat 92]
  else if n = 10 then [Char.ofNat 92, 'n']
  else if n = 9 then [Char.ofNat 92, 't']
  else if n = 13 then [Char.ofNat 92, 'r']
  else if n = 8 then [Char.ofNat 92, 'b']
  else if n = 12 then [Char.ofNat 92, 'f']
  else if n < 32 then uEsc n
  else if n < 127 then [c]
  else if n < 65536 then uEsc n
  else uEsc (55296 + (n - 65536) / 1024) ++ uEsc (56320 + (n - 65536) % 1024)

/-- A JSON string literal: quoted, escaped. -/
def quoteChars (s : String) : List Char :=
  Char.ofNat 34 :: s.data.flatMap escChar ++ [Char.ofNat 34]

def intChars (n : Int) : List Char := (toString n).data

/-- Decimal rendering of a Python float that is a terminating decimal
(the only floats the modelled code serialises, e.g. `2.0`, `0.5`).
Integral values print with a trailing `.0` as `repr` does. -/
def fnumChars (q : ℚ) : List Char :=
  if q.den = 1 then intChars q.num ++ ['.', '0']
  else
    match (List.range 31).find? (fun k => (q * ((10 : ℚ) ^ k)).den = 1) with
    | some k =>
      let scaled := (q * ((10 : ℚ) ^ k)).num
      let sign : List Char := if scaled < 0 then ['-'] else []
      let ds := (toString scaled.natAbs).data
      let ds := if ds.length ≤ k then List.replicate (k + 1 - ds.length) '0' ++ ds else ds
      sign ++ ds.take (ds.length - k) ++ ['.'] ++ ds.drop (ds.length - k)
    | none => intChars q.num ++ ['/'] ++ intChars (Int.ofNat q.den)

def lbrace : Char := Char.ofNat 123
def rbrace : Char := Char.ofNat 125

mutual
/-- Source: `json.dumps(v, separators=(",", ":"), ensure_ascii=True)` as a character
list, keys in insertion order. -/
def jdump : Json → List Char
  | .null => "null".data
  | .bool true => "true".data
  | .bool false => "false".data
  | .num n => intChars n
  | .fnum q => fnumChars q
  | .str s => quoteChars s
  | .arr xs => '[' :: jdumpArr xs ++ [']']
  | .obj kvs => lbrace :: jdumpObj kvs ++ [rbrace]

def jdumpArr : List Json → List Char
  | [] => []
  | [x] => jdump x
  | x :: y :: rest => jdump x ++ ',' :: jdumpArr (y :: rest)

def jdumpObj : List (String × Json) → List Char
  | [] => []
  | [(k, v)] => quoteChars k ++ ':' :: jdump v
  | (k, v) :: p :: rest => quoteChars k ++ ':' :: jdump v ++ ',' :: jdumpObj (p :: rest)
end

/-- Stable insertion sort of object entries by key, code-point order --
what `sort_keys=True` does at each nesting level. -/
def insertByKey (p : String × Json) : List (String × Json) → List (String × Json)
  | [] => [p]
  | q :: rest => if p.1 ≤ q.1 then p :: q :: rest else q :: insertByKey p rest

def sortByKey (kvs : List (String × Json)) : List (String × Json) :=
  kvs.foldr insertByKey []

mutual
/-- Recursively sort every object's keys. Serialising the result with
`jdump` is `json.dumps(v, sort_keys=True, separators=(",", ":"))`. -/
def sortKeysDeep : Json → Json
  | .null => .null
  | .bool b => .bool b
  | .num n => .num n
  | .fnum q => .fnum q
  | .str s => .str s
  | .arr xs => .arr (sortArrDeep xs)
  | .obj kvs => .obj (sortByKey (sortObjDeep kvs))

def sortArrDeep : List Json → List Json
  | [] => []
  | x :: rest => sortKeysDeep x :: sortArrDeep rest

def sortObjDeep : List (String × Json) → List (String × Json)
  | [] => []
  | (k, v) :: rest => (k, sortKeysDeep v) :: sortObjDeep rest
end

/-- Canonical JSON rule used throughout the engine: keys sorted
recursively, separators `","`/`":"`, ASCII-escaped. -/
def canonicalChars (j : Json) : List Char := jdump (sortKeysDeep j)

def canonicalString (j : Json) : String := String.mk (canonicalChars j)

/-- Source: `state_models.estimate_tokens`: `max(1, len(json.dumps(payload,
separators=(",", ":"), ensure_ascii=True)) // 4)`. -/
def estimate_tokens (j : Json) : Nat := max 1 ((jdump j).length / 4)

/-- Source: `payload.get(key)` on a dict. -/
def jget (j : Json) (key : String) : Option Json :=
  match j with
  | .obj kvs => (kvs.find? (fun kv => kv.1 = key)).map (·.2)
  | _ => none

/-- Source: `payload.get(key, default)`. -/
def jgetD (j : Json) (key : String) (dflt : Json) : Json := (jget j key).getD dflt

/-- Source: `payload[key] = v` on a dict: replaces the value in place if the key
exists (Python keeps its position), else appends. -/
def jsetEntries (key : String) (v : Json) : List (String × Json) → List (String × Json)
  | [] => [(key, v)]
  | kv :: rest => if kv.1 = key then (key, v) :: rest else kv :: jsetEntries key v rest

def jset (j : Json) (key : String) (v : Json) : Json :=
  match j with
  | .obj kvs => .obj (jsetEntries key v kvs)
  | other => other

/-- Source: `payload.pop(key, ...)`: the dict without the key. -/
def jdel (j : Json) (key : String) : Json :=
  match j with
  | .obj kvs => .obj (kvs.filter (fun kv => ¬ kv.1 = key))
  | other => other

/-- Python truthiness of a JSON value, as `bool(...)` computes it. -/
def jtruthy : Json → Bool
  | .null => false
  | .bool b => b
  | .num n => n ≠ 0
  | .fnum q => q ≠ 0
  | .str s => s ≠ ""
  | .arr xs => ¬ xs.isEmpty
  | .obj kvs => ¬ kvs.isEmpty

/-! ## Bytes, UTF-8, SHA-256, HMAC

Byte strings are `List Nat` with every element below 256. `hashlib.sha256`
is implemented from FIPS 180-4 over 32-bit words as `Nat % 2^32`. -/

/-- UTF-8 encoding of one scalar value. -/
def utf8Char (c : Char) : List Nat :=
  let n := c.toNat
  if n < 128 then [n]
  else if n < 2048 then [192 + n / 64, 128 + n % 64]
  else if n < 65536 then [224 + n / 4096, 128 + n / 64 % 64, 128 + n % 64]
  else [240 + n / 262144, 128 + n / 4096 % 64, 128 + n / 64 % 64, 128 + n % 64]

/-- Source: `s.encode("utf-8")`. -/
def utf8Bytes (s : String) : List Nat := s.data.flatMap utf8Char

def w32 (n : Nat) : Nat := n % 4294967296

def rotr32 (k n : Nat) : Nat := w32 ((n >>> k) ||| (n <<< (32 - k)))

def bsig0 (n : Nat) : Nat := rotr32 2 n ^^^ rotr32 13 n ^^^ rotr32 22 n

def bsig1 (n : Nat) : Nat := rotr32 6 n ^^^ rotr32 11 n ^^^ rotr32 25 n

def ssig0 (n : Nat) : Nat := rotr32 7 n ^^^ rotr32 18 n ^^^ (n >>> 3)

def ssig1 (n : Nat) : Nat := rotr32 17 n ^^^ rotr32 19 n ^^^ (n >>> 10)

def chFn (e f g : Nat) : Nat := (e &&& f) ^^^ ((4294967295 ^^^ w32 e) &&& g)

def majFn (a b c : Nat) : Nat := (a &&& b) ^^^ (a &&& c) ^^^ (b &&& c)

def sha256K : List Nat :=
  [1116352408, 1899447441, 3049323471, 3921009573, 961987163,
   1508970993, 2453635748, 2870763221, 3624381080, 310598401,
   607225278, 1426881987, 1925078388, 2162078206, 2614888103,
   3248222580, 3835390401, 4022224774, 264347078, 604807628,
   770255983, 1249150122, 1555081692, 1996064986, 2554220882,
   2821834349, 2952996808, 3210313671, 3336571891, 3584528711,
   113926993, 338241895, 666307205, 773529912, 1294757372,
   1396182291, 1695183700, 1986661051, 2177026350, 2456956037,
   2730485921, 2820302411, 3259730800, 3345764771, 3516065817,
   3600352804, 4094571909, 275423344, 430227734, 506948616,
   659060556, 883997877, 958139571, 1322822218, 1537002063,
   1747873779, 1955562222, 2024104815, 2227730452, 2361852424,
   2428436474, 2756734187, 3204031479, 3329325298]

def sha256IV : List Nat :=
  [1779033703, 3144134277, 1013904242,
   2773480762, 1359893119, 2600822924,
   528734635, 1541459225]

/-- Merkle–Damgård padding: append `0x80`, zeros to 56 mod 64, then the
bit length as 8 big-endian bytes. -/
def shaPad (msg : List Nat) : List Nat :=
  let bitLen := 8 * msg.length
  let padZeros := (119 - msg.length % 64) % 64
  msg ++ [128] ++ List.replicate padZeros 0 ++
    [bitLen >>> 56 % 256, bitLen >>> 48 % 256, bitLen >>> 40 % 256, bitLen >>> 32 % 256,
     bitLen >>> 24 % 256, bitLen >>> 16 % 256, bitLen >>> 8 % 256, bitLen % 256]

/-- The 64-entry message schedule of one 64-byte block. -/
def msgSchedule (block : List Nat) : Array Nat :=
  let w0 := (((List.range 16).map (fun i =>
    let b := fun j => block.getD (4 * i + j) 0
    (b 0 <<< 24) ||| (b 1 <<< 16) ||| (b 2 <<< 8) ||| b 3)) : List Nat).toArray
  (List.range 48).foldl (fun w t =>
    let i := t + 16
    w.push (w32 (ssig1 (w.getD (i - 2) 0) + w.getD (i - 7) 0 +
                 ssig0 (w.getD (i - 15) 0) + w.getD (i - 16) 0))) w0

def Sha8 := Nat × Nat × Nat × Nat × Nat × Nat × Nat × Nat

def shaRound (w : Array Nat) (st : Sha8) (t : Nat) : Sha8 :=
  match st with
  | (a, b, c, d, e, f, g, hh) =>
    let t1 := w32 (hh + bsig1 e + chFn e f g + sha256K.getD t 0 + w.getD t 0)
    let t2 := w32 (bsig0 a + majFn a b c)
    (w32 (t1 + t2), a, b, c, w32 (d + t1), e, f, g)

def stateAdd (h : List Nat) (st : Sha8) : List Nat :=
  match st with
  | (a, b, c, d, e, f, g, hh) =>
    [w32 (h.getD 0 0 + a), w32 (h.getD 1 0 + b), w32 (h.getD 2 0 + c),
     w32 (h.getD 3 0 + d), w32 (h.getD 4 0 + e), w32 (h.getD 5 0 + f),
     w32 (h.getD 6 0 + g), w32 (h.getD 7 0 + hh)]

def shaCompress (h : List Nat) (block : List Nat) : List Nat :=
  let w := msgSchedule block
  let st0 : Sha8 :=
    (h.getD 0 0, h.getD 1 0, h.getD 2 0, h.getD 3 0,
     h.getD 4 0, h.getD 5 0, h.getD 6 0, h.getD 7 0)
  stateAdd h ((List.range 64).foldl (shaRound w) st0)

/-- 32-bit word to 4 big-endian bytes. -/
def wordBytes (wd : Nat) : List Nat :=
  [wd / 16777216 % 256, wd / 65536 % 256, wd / 256 % 256, wd % 256]

def wordsToBytes (ws : List Nat) : List Nat := ws.flatMap wordBytes

/-- Source: `hashlib.sha256(msg).digest()` as 32 bytes. -/
def sha256Bytes (msg : List Nat) : List Nat :=
  let padded := shaPad msg
  wordsToBytes ((List.range (padded.length / 64)).foldl
    (fun h i => shaCompress h ((padded.drop (64 * i)).take 64)) sha256IV)

def byteHexChars (b : Nat) : List Char := [hexDigitChar (b / 16 % 16), hexDigitChar (b % 16)]

def bytesHexChars (bs : List Nat) : List Char := bs.flatMap byteHexChars

/-- Source: `hashlib.sha256(msg).hexdigest()`. -/
def sha256Hex (msg : List Nat) : String := String.mk (bytesHexChars (sha256Bytes msg))

/-- Python string slice `s[:n]`. -/
def strSlice (s : String) (n : Nat) : String := String.mk (s.data.take n)

/-- RFC 2104 HMAC-SHA256 over byte lists (block size 64). -/
def hmacSha256 (key msg : List Nat) : List Nat :=
  let k0 := if key.length > 64 then sha256Bytes key else key
  let kp := k0 ++ List.replicate (64 - k0.length) 0
  sha256Bytes ((kp.map (fun b => b ^^^ 92)) ++
    sha256Bytes ((kp.map (fun b => b ^^^ 54)) ++ msg))

/-- Source: `hmac.new(key, msg, digestmod="sha256").hexdigest()`. -/
def hmacSha256Hex (key msg : List Nat) : String :=
  String.mk (bytesHexChars (hmacSha256 key msg))


/-! ## Contracts (`app/core/v2/contracts.py`)

Frozen dataclasses become structures; enums become inductives whose
`value` strings are what `json.dumps` emits for the `(str, Enum)`
subclasses. Python `int` fields are `Int`, the float multiplier is `ℚ`,
tuples are lists, `Any`-typed payload values are `Json`. -/

inductive ActionType where
  | navigate | click | typeText | select | upload
  | download_trigger | wait_only | custom_js_restricted
deriving DecidableEq

def ActionType.value : ActionType → String
  | .navigate => "navigate"
  | .click => "click"
  | .typeText => "type"
  | .select => "select"
  | .upload => "upload"
  | .download_trigger => "download_trigger"
  | .wait_only => "wait_only"
  | .custom_js_restricted => "custom_js_restricted"

inductive VerificationRuleType where
  | element_present | text_state | attribute_state | network_status
  | json_field | file_exists | url_pattern | invariant
deriving DecidableEq

def VerificationRuleType.value : VerificationRuleType → String
  | .element_present => "element_present"
  | .text_state => "text_state"
  | .attribute_state => "attribute_state"
  | .network_status => "network_status"
  | .json_field => "json_field"
  | .file_exists => "file_exists"
  | .url_pattern => "url_pattern"
  | .invariant => "invariant"

inductive EscalationMode where
  | retry_rebind | vision_fallback | human_review | fail_workflow
deriving DecidableEq

def EscalationMode.value : EscalationMode → String
  | .retry_rebind => "retry_rebind"
  | .vision_fallback => "vision_fallback"
  | .human_review => "human_review"
  | .fail_workflow => "fail_workflow"

structure RetryPolicy where
  max_attempts : Int := 2
  initial_backoff_ms : Int := 250
  max_backoff_ms : Int := 2000
  multiplier : ℚ := 2
  retryable_failure_codes : List String :=
    ["ACTION_EXECUTION_FAILED", "WAIT_TIMEOUT", "TARGET_BIND_FAILED"]

structure TimeoutPolicy where
  total_timeout_ms : Int := 30000
  bind_timeout_ms : Int := 5000
  execute_timeout_ms : Int := 10000
  wait_timeout_ms : Int := 10000
  verify_timeout_ms : Int := 5000

structure EscalationPolicy where
  on_exhausted_retries : EscalationMode := .fail_workflow
  on_non_retryable : EscalationMode := .human_review

structure ActionSpec where
  action_type : ActionType
  target_eid : Option String := none
  target_fid : Option String := none
  selector : Option String := none
  selector_candidates : List String := []
  text : Option String := none
  url : Option String := none
  select_value : Option String := none
  upload_artifact_id : Option String := none
  js_expression : Option String := none
  js_argument : Json := .null

structure VerificationRule where
  rule_type : VerificationRuleType
  severity : String := "hard"
  payload : List (String × Json) := []

structure WaitCondition where
  kind : String
  payload : List (String × Json) := []
  timeout_ms : Option Int := none

structure ActionContract where
  workflow_id : String
  run_id : String
  step_index : Int
  intent : String
  preconditions : List VerificationRule := []
  action_spec : ActionSpec := { action_type := .wait_only }
  expected_postconditions : List VerificationRule := []
  verification_rules : List VerificationRule := []
  wait_conditions : List WaitCondition := []
  timeout : TimeoutPolicy := {}
  retry : RetryPolicy := {}
  escalation : EscalationPolicy := {}
  metadata : List (String × Json) := []

def optStrJson : Option String → Json
  | none => .null
  | some s => .str s

def optIntJson : Option Int → Json
  | none => .null
  | some n => .num n

def VerificationRule.asdict (r : VerificationRule) : Json :=
  .obj [("rule_type", .str r.rule_type.value), ("severity", .str r.severity),
        ("payload", .obj r.payload)]

def WaitCondition.asdict (w : WaitCondition) : Json :=
  .obj [("kind", .str w.kind), ("payload", .obj w.payload),
        ("timeout_ms", optIntJson w.timeout_ms)]

def ActionSpec.asdict (a : ActionSpec) : Json :=
  .obj [("action_type", .str a.action_type.value),
        ("target_eid", optStrJson a.target_eid),
        ("target_fid", optStrJson a.target_fid),
        ("selector", optStrJson a.selector),
        ("selector_candidates", .arr (a.selector_candidates.map Json.str)),
        ("text", optStrJson a.text),
        ("url", optStrJson a.url),
        ("select_value", optStrJson a.select_value),
        ("upload_artifact_id", optStrJson a.upload_artifact_id),
        ("js_expression", optStrJson a.js_expression),
        ("js_argument", a.js_argument)]

def RetryPolicy.asdict (r : RetryPolicy) : Json :=
  .obj [("max_attempts", .num r.max_attempts),
        ("initial_backoff_ms", .num r.initial_backoff_ms),
        ("max_backoff_ms", .num r.max_backoff_ms),
        ("multiplier", .fnum r.multiplier),
        ("retryable_failure_codes", .arr (r.retryable_failure_codes.map Json.str))]

def TimeoutPolicy.asdict (t : TimeoutPolicy) : Json :=
  .obj [("total_timeout_ms", .num t.total_timeout_ms),
        ("bind_timeout_ms", .num t.bind_timeout_ms),
        ("execute_timeout_ms", .num t.execute_timeout_ms),
        ("wait_timeout_ms", .num t.wait_timeout_ms),
        ("verify_timeout_ms", .num t.verify_timeout_ms)]

def EscalationPolicy.asdict (e : EscalationPolicy) : Json :=
  .obj [("on_exhausted_retries", .str e.on_exhausted_retries.value),
        ("on_non_retryable", .str e.on_non_retryable.value)]

/-- Source: `dataclasses.asdict(self)`, fields in declaration order. -/
def ActionContract.asdict (c : ActionContract) : Json :=
  .obj [("workflow_id", .str c.workflow_id),
        ("run_id", .str c.run_id),
        ("step_index", .num c.step_index),
        ("intent", .str c.intent),
        ("preconditions", .arr (c.preconditions.map VerificationRule.asdict)),
        ("action_spec", c.action_spec.asdict),
        ("expected_postconditions", .arr (c.expected_postconditions.map VerificationRule.asdict)),
        ("verification_rules", .arr (c.verification_rules.map VerificationRule.asdict)),
        ("wait_conditions", .arr (c.wait_conditions.map WaitCondition.asdict)),
        ("timeout", c.timeout.asdict),
        ("retry", c.retry.asdict),
        ("escalation", c.escalation.asdict),
        ("metadata", .obj c.metadata)]

/-- Source: `ActionContract.canonical_dict`: `asdict` with map keys recursively
sorted. (The source's `normalize` sorts dict keys; `canonical_json` then
dumps with `sort_keys=True`, which sorts every level -- `sortKeysDeep`
captures the composed effect.) -/
def ActionContract.canonical_dict (c : ActionContract) : Json := sortKeysDeep c.asdict

/-- Source: `ActionContract.canonical_json`: canonical serialisation. -/
def ActionContract.canonical_json (c : ActionContract) : String :=
  String.mk (jdump c.canonical_dict)

/-- Source: `ActionContract.action_id`:
`"act_" + sha256(canonical_json.encode("utf-8")).hexdigest()[:24]`. -/
def ActionContract.action_id (c : ActionContract) : String :=
  "act_" ++ strSlice (sha256Hex (utf8Bytes c.canonical_json)) 24

/-- The 24 hex characters `action_id` appends after `"act_"`. -/
def ActionContract.digest24 (c : ActionContract) : String :=
  strSlice (sha256Hex (utf8Bytes c.canonical_json)) 24

/-- Source: `ActionExecutionResult` (mutable dataclass). `escalation` is optional;
`state_delta`/`network_summary`/`telemetry`/`metadata` are dicts,
`artifacts` a list of dicts. -/
structure ActionExecutionResult where
  action_id : String
  success : Bool
  failure_code : Option String := none
  attempts : Nat := 1
  escalation : Option EscalationMode := none
  verification_passed : Bool := false
  pre_state_id : Option String := none
  post_state_id : Option String := none
  state_delta : Json := .obj []
  network_summary : Json := .obj []
  telemetry : Json := .obj []
  artifacts : List Json := []
  metadata : Json := .obj []

/-- Source: `ActionExecutionResult.to_dict`. -/
def ActionExecutionResult.to_dict (r : ActionExecutionResult) : Json :=
  .obj [("action_id", .str r.action_id),
        ("success", .bool r.success),
        ("failure_code", optStrJson r.failure_code),
        ("attempts", .num r.attempts),
        ("escalation", match r.escalation with | none => .null | some e => .str e.value),
        ("verification_passed", .bool r.verification_passed),
        ("pre_state_id", optStrJson r.pre_state_id),
        ("post_state_id", optStrJson r.post_state_id),
        ("state_delta", r.state_delta),
        ("network_summary", r.network_summary),
        ("telemetry", r.telemetry),
        ("artifacts", .arr r.artifacts),
        ("metadata", r.metadata)]

/-! ## Audit trail (`app/core/v2/audit_trail.py`)

`AuditRecord` mirrors the dataclass; the result-derived fields
(`failure_code`, state ids, delta, summary, artifacts, telemetry,
metadata) hold whatever JSON value `result.get(...)` produced, as the
Python record does. A trail is modelled for one `(tenant_id, workflow_id)`
pair: its JSONL file is the record list and `_last_hash[key]` the
`last_hash` string (`""` when unset, exactly the `.get(key, "")`
default). The signing key is a byte list; `b""` (the empty list) is the
unset key. -/

structure AuditRecord where
  record_id : String
  ts : String
  tenant_id : String
  workflow_id : String
  action_id : String
  contract_json : String
  action_hash : String
  success : Bool
  failure_code : Json
  pre_state_id : Json
  post_state_id : Json
  state_delta : Json
  network_summary : Json
  artifacts : Json
  telemetry : Json
  metadata : Json
  previous_record_hash : String
  signature : String
  record_hash : String

/-- Source: `AuditRecord.to_dict`, keys in source order. -/
def AuditRecord.to_dict (r : AuditRecord) : Json :=
  .obj [("record_id", .str r.record_id),
        ("ts", .str r.ts),
        ("tenant_id", .str r.tenant_id),
        ("workflow_id", .str r.workflow_id),
        ("action_id", .str r.action_id),
        ("contract_json", .str r.contract_json),
        ("action_hash", .str r.action_hash),
        ("success", .bool r.success),
        ("failure_code", r.failure_code),
        ("pre_state_id", r.pre_state_id),
        ("post_state_id", r.post_state_id),
        ("state_delta", r.state_delta),
        ("network_summary", r.network_summary),
        ("artifacts", r.artifacts),
        ("telemetry", r.telemetry),
        ("metadata", r.metadata),
        ("previous_record_hash", .str r.previous_record_hash),
        ("signature", .str r.signature),
        ("record_hash", .str r.record_hash)]

/-- Source: `AuditTrail._canonical_json`. -/
def auditCanonicalJson (payload : Json) : String := canonicalString payload

/-- Source: `AuditTrail._compute_record_hash`. -/
def compute_record_hash (payload_without_hash : Json) : String :=
  sha256Hex (utf8Bytes (auditCanonicalJson payload_without_hash))

/-- Source: `AuditTrail._action_hash`. -/
def action_hash_of (canonical_contract_json : String) : String :=
  sha256Hex (utf8Bytes canonical_contract_json)

/-- Source: `AuditTrail._sign`: empty signature without a signing key, else
HMAC-SHA256 over the canonical payload. -/
def audit_sign (signing_key : List Nat) (payload : Json) : String :=
  if signing_key = [] then ""
  else hmacSha256Hex signing_key (utf8Bytes (auditCanonicalJson payload))

/-- Source: `AuditTrail._verify_signature` (`hmac.compare_digest` is equality). -/
def audit_verify_signature (signing_key : List Nat) (payload : Json) (signature : String) : Bool :=
  if signing_key = [] then signature = ""
  else audit_sign signing_key payload = signature

/-- The record's `to_dict` with `record_hash` and `signature` popped, as
`verify_chain` rebuilds the signed payload. -/
def payload_without_hash (r : AuditRecord) : Json :=
  jdel (jdel r.to_dict "record_hash") "signature"

/-- One workflow's trail state: the JSONL file contents plus the
in-process `_last_hash` entry. -/
structure AuditState where
  records : List AuditRecord := []
  last_hash : String := ""

/-- One `append(...)` call's inputs (`ts` is the wall-clock ISO string
`datetime.now` produced). -/
structure AppendInput where
  ts : String
  action_id : String
  canonical_contract_json : String
  result : Json

/-- Source: `AuditTrail.append`: derive the previous hash from `_last_hash`,
falling back to the last record on file; build the base payload; sign and
hash it; write the record and remember its hash. -/
def audit_append (signing_key : List Nat) (tenant_id workflow_id : String)
    (st : AuditState) (inp : AppendInput) : AuditRecord × AuditState :=
  let previous_hash := st.last_hash
  let previous_hash :=
    if previous_hash = "" then
      match st.records.getLast? with
      | some r => r.record_hash
      | none => ""
    else previous_hash
  let record_seed :=
    tenant_id ++ "|" ++ workflow_id ++ "|" ++ inp.action_id ++ "|" ++ inp.ts ++ "|" ++ previous_hash
  let record_id := "ar_" ++ strSlice (sha256Hex (utf8Bytes record_seed)) 24
  let record0 : AuditRecord :=
    { record_id := record_id
      ts := inp.ts
      tenant_id := tenant_id
      workflow_id := workflow_id
      action_id := inp.action_id
      contract_json := inp.canonical_contract_json
      action_hash := action_hash_of inp.canonical_contract_json
      success := jtruthy (jgetD inp.result "success" (.bool false))
      failure_code := jgetD inp.result "failure_code" .null
      pre_state_id := jgetD inp.result "pre_state_id" .null
      post_state_id := jgetD inp.result "post_state_id" .null
      state_delta := jgetD inp.result "state_delta" (.obj [])
      network_summary := jgetD inp.result "network_summary" (.obj [])
      artifacts := jgetD inp.result "artifacts" (.arr [])
      telemetry := jgetD inp.result "telemetry" (.obj [])
      metadata := jgetD inp.result "metadata" (.obj [])
      previous_record_hash := previous_hash
      signature := ""
      record_hash := "" }
  let base_payload := payload_without_hash record0
  let record : AuditRecord :=
    { record0 with
      signature := audit_sign signing_key base_payload
      record_hash := compute_record_hash base_payload }
  (record, { records := st.records ++ [record], last_hash := record.record_hash })

def audit_append_all (signing_key : List Nat) (tenant_id workflow_id : String)
    (st : AuditState) (inputs : List AppendInput) : AuditState :=
  inputs.foldl (fun s i => (audit_append signing_key tenant_id workflow_id s i).2) st

/-- Source: `AuditTrail.get_record_by_action` over loaded records. -/
def get_record_by_action (records : List AuditRecord) (action_id : String) : Option AuditRecord :=
  records.find? (fun r => r.action_id = action_id)

/-- Source: `AuditTrail.verify_chain`'s loop, tracking the predecessor's stored
hash and the running index. -/
def verify_from (signing_key : List Nat) (previous_hash : String) (index : Nat) :
    List AuditRecord → Bool × String
  | [] => (true, "ok")
  | r :: rest =>
    if r.previous_record_hash ≠ previous_hash then
      (false, "chain_link_mismatch_at_index_" ++ toString index)
    else
      let pwh := payload_without_hash r
      if compute_record_hash pwh ≠ r.record_hash then
        (false, "record_hash_mismatch_at_index_" ++ toString index)
      else if ¬ audit_verify_signature signing_key pwh r.signature then
        (false, "record_signature_mismatch_at_index_" ++ toString index)
      else verify_from signing_key r.record_hash (index + 1) rest

/-- Source: `AuditTrail.verify_chain` on the records read back from the file. -/
def verify_chain (signing_key : List Nat) (records : List AuditRecord) : Bool × String :=
  verify_from signing_key "" 0 records

/-- Source: `AuditTrail.list_records`: a missing file yields no records; blank
lines are skipped and every other stripped line is parsed into a record
(`parse` abstracts `AuditRecord(**json.loads(raw))`). -/
def list_records_file (file : Option (List String)) (parse : String → AuditRecord) :
    List AuditRecord :=
  match file with
  | none => []
  | some lines => (lines.filter (fun l => ¬ l.trim = "")).map (fun l => parse l.trim)

/-! Index-based chain conditions, stated independently of the
`verify_from` scan so that "accepts exactly such chains" is a theorem and
not a restatement. `prevHashAt` is the predecessor hash expected at an
index: the parameter `before` below index 0 (`""` for a whole file),
otherwise the stored hash of the record one position earlier. -/

inductive ChainViolation where
  | link | hash | sig
deriving DecidableEq

def chainMessage : ChainViolation → Nat → String
  | .link, i => "chain_link_mismatch_at_index_" ++ toString i
  | .hash, i => "record_hash_mismatch_at_index_" ++ toString i
  | .sig, i => "record_signature_mismatch_at_index_" ++ toString i

def prevHashAt (before : String) (records : List AuditRecord) (i : Nat) : String :=
  match i with
  | 0 => before
  | j + 1 => ((records.get? j).map (·.record_hash)).getD ""

/-- The first condition record `i` violates, if any: the chain link,
then the re-derived hash, then the signature. -/
def violationAt (signing_key : List Nat) (before : String) (records : List AuditRecord)
    (i : Nat) : Option ChainViolation :=
  match records.get? i with
  | none => none
  | some r =>
    if r.previous_record_hash ≠ prevHashAt before records i then some .link
    else if compute_record_hash (payload_without_hash r) ≠ r.record_hash then some .hash
    else if ¬ audit_verify_signature signing_key (payload_without_hash r) r.signature then some .sig
    else none

/-- A well-formed chain: no index violates any condition. -/
def ChainOk (signing_key : List Nat) (records : List AuditRecord) : Prop :=
  ∀ i, violationAt signing_key "" records i = none

/-! ## Action engine (`app/core/v2/action_engine.py`)

`ActionEngine.execute` drives the per-action state machine. The browser
environment is abstracted as an oracle `EngineEnv`: what the extractor
and verifier return, and how each numbered attempt's
`execute_with_conditions(dispatch)` call ends -- either raising (any
exception is mapped to `ACTION_EXECUTION_FAILED`) or completing with a
verification verdict. The returned effect list records which attempts
reached the dispatch call, so "no dispatch" is `[]`. -/

inductive AttemptOutcome where
  | raises
  | verified (passed : Bool)

def AttemptOutcome.failure_code : AttemptOutcome → String
  | .raises => "ACTION_EXECUTION_FAILED"
  | .verified _ => "POSTCONDITION_FAILED"

structure EngineEnv where
  pre_state_id : String
  preconditions_passed : Bool := true
  precondition_failures : Json := .arr []
  attempt_outcome : Nat → AttemptOutcome
  post_state_id : Nat → String := fun _ => ""
  exception_text : Nat → String := fun _ => ""
  state_delta : Json := .obj []
  network_summary : Json := .obj []
  telemetry : Json := .obj []
  runtime_events : Json := .arr []
  artifacts : List Json := []

/-- Source: `bool(wait_conditions or expected_postconditions or
verification_rules)`. -/
def has_post_guard (c : ActionContract) : Bool :=
  ¬ c.wait_conditions.isEmpty ∨ ¬ c.expected_postconditions.isEmpty ∨
    ¬ c.verification_rules.isEmpty

/-- Source: `min(int(backoff_ms * multiplier), max_backoff_ms)` (Python `int()`
truncates toward zero). -/
def next_backoff (backoff_ms : Int) (retry : RetryPolicy) : Int :=
  min (Rat.floor ((backoff_ms : ℚ) * retry.multiplier)) retry.max_backoff_ms

/-- The engine's `while attempts < max_attempts` loop. `fuel` is the
number of remaining admissible iterations (`max_attempts - attempts`;
the engine enters with `attempts = 0` and `fuel = max_attempts.toNat`),
`attempts`/`backoff_ms` the mutable counters. Returned alongside the
result is the list of attempt numbers whose dispatch ran. -/
def attempt_loop (c : ActionContract) (env : EngineEnv) (action_id : String) :
    Nat → Nat → Int → ActionExecutionResult × List Nat
  | 0, attempts, _ =>
    -- loop exit: `attempts < max_attempts` no longer holds
    ({ action_id := action_id
       success := false
       failure_code := some "RETRY_EXHAUSTED"
       attempts := attempts
       escalation := some c.escalation.on_exhausted_retries
       verification_passed := false
       pre_state_id := some env.pre_state_id
       post_state_id := some env.pre_state_id
       telemetry := env.telemetry }, [])
  | fuel + 1, attempts, backoff_ms =>
    let attempts := attempts + 1
    match env.attempt_outcome attempts with
    | .verified true =>
      ({ action_id := action_id
         success := true
         attempts := attempts
         verification_passed := true
         pre_state_id := some env.pre_state_id
         post_state_id := some (env.post_state_id attempts)
         state_delta := env.state_delta
         network_summary := env.network_summary
         telemetry := env.telemetry
         artifacts := env.artifacts
         metadata := .obj
           [("runtime_events", env.runtime_events),
            ("guard_summary", .obj
              [("wait_conditions", .num c.wait_conditions.length),
               ("verification_rules", .num (c.expected_postconditions.length +
                  c.verification_rules.length))])] }, [attempts])
    | .verified false =>
      let retryable := "POSTCONDITION_FAILED" ∈ c.retry.retryable_failure_codes
      if ¬ retryable ∨ (attempts : Int) ≥ c.retry.max_attempts then
        ({ action_id := action_id
           success := false
           failure_code := some "POSTCONDITION_FAILED"
           attempts := attempts
           escalation := some c.escalation.on_exhausted_retries
           verification_passed := false
           pre_state_id := some env.pre_state_id
           post_state_id := some (env.post_state_id attempts)
           telemetry := env.telemetry
           metadata := .obj [("verification_failures", .arr [])] }, [attempts])
      else
        let (r, effs) := attempt_loop c env action_id fuel attempts (next_backoff backoff_ms c.retry)
        (r, attempts :: effs)
    | .raises =>
      let retryable := "ACTION_EXECUTION_FAILED" ∈ c.retry.retryable_failure_codes
      if ¬ retryable ∨ (attempts : Int) ≥ c.retry.max_attempts then
        ({ action_id := action_id
           success := false
           failure_code := some "ACTION_EXECUTION_FAILED"
           attempts := attempts
           escalation := some c.escalation.on_exhausted_retries
           verification_passed := false
           pre_state_id := some env.pre_state_id
           post_state_id := some env.pre_state_id
           telemetry := env.telemetry
           metadata := .obj [("exception", .str (env.exception_text attempts))] }, [attempts])
      else
        let (r, effs) := attempt_loop c env action_id fuel attempts (next_backoff backoff_ms c.retry)
        (r, attempts :: effs)

/-- Source: `ActionEngine.execute`: post-guard gate, pre-state extraction,
precondition check, then the attempt loop. -/
def engine_execute (c : ActionContract) (env : EngineEnv) :
    ActionExecutionResult × List Nat :=
  let action_id := c.action_id
  if c.action_spec.action_type ≠ ActionType.wait_only ∧ has_post_guard c = false then
    ({ action_id := action_id
       success := false
       failure_code := some "MISSING_POST_ACTION_GUARD"
       attempts := 1
       verification_passed := false
       metadata := .obj
         [("detail", .str "Non-wait action requires wait_conditions or verification rules")] }, [])
  else if env.preconditions_passed = false then
    ({ action_id := action_id
       success := false
       failure_code := some "PRECONDITION_FAILED"
       attempts := 1
       verification_passed := false
       pre_state_id := some env.pre_state_id
       post_state_id := some env.pre_state_id
       telemetry := env.telemetry
       metadata := .obj [("precondition_failures", env.precondition_failures)] }, [])
  else
    attempt_loop c env action_id c.retry.max_attempts.toNat 0 c.retry.initial_backoff_ms

/-! ## Circuit breaker (`app/core/v2/resilience.py`)

The in-memory branch (`store=None`, the configuration the tests
exercise). Timestamps are rationals; the per-key `defaultdict` of
circuits is an association list that materialises the default circuit on
access, as `defaultdict` does. -/

inductive CircuitState where
  | closed | opened | half_open
deriving DecidableEq

def CircuitState.value : CircuitState → String
  | .closed => "closed"
  | .opened => "open"
  | .half_open => "half_open"

structure CircuitDecision where
  allowed : Bool
  state : CircuitState
  code : String
  detail : String := ""
deriving DecidableEq

structure DomainCircuit where
  state : CircuitState := .closed
  opened_at : ℚ := 0
  recent_failures : List ℚ := []
deriving DecidableEq

structure BreakerConfig where
  failure_threshold : Int := 5
  failure_window_seconds : Int := 120
  open_interval_seconds : Int := 60

/-- Source: `DomainCircuitBreaker._key` (an empty tenant string is falsy). -/
def circuit_key (domain : String) (tenant_id : Option String) : String :=
  match tenant_id with
  | some t => if t ≠ "" then t ++ "::" ++ domain else domain
  | none => domain

abbrev BreakerCircuits := List (String × DomainCircuit)

def circuitFor (st : BreakerCircuits) (key : String) : DomainCircuit :=
  ((st.find? (fun kv => kv.1 = key)).map (·.2)).getD {}

def setCircuit (st : BreakerCircuits) (key : String) (c : DomainCircuit) : BreakerCircuits :=
  jsetCircuit st
where jsetCircuit : BreakerCircuits → BreakerCircuits
  | [] => [(key, c)]
  | kv :: rest => if kv.1 = key then (key, c) :: rest else kv :: jsetCircuit rest

/-- Source: `DomainCircuitBreaker._prune`: pop from the left while older than
`now - window`. -/
def circuit_prune (cfg : BreakerConfig) (c : DomainCircuit) (now : ℚ) : DomainCircuit :=
  { c with recent_failures :=
      c.recent_failures.dropWhile (fun t => t < now - (cfg.failure_window_seconds : ℚ)) }

/-- Source: `DomainCircuitBreaker.allow` (in-memory branch): an open circuit
admits and turns half-open once `open_interval` has elapsed since
`opened_at`, else denies with `CIRCUIT_OPEN`; any other state admits. -/
def breaker_allow (cfg : BreakerConfig) (st : BreakerCircuits) (domain : String)
    (tenant_id : Option String) (now : ℚ) : CircuitDecision × BreakerCircuits :=
  let key := circuit_key domain tenant_id
  let c := circuitFor st key
  if c.state = .opened then
    if now - c.opened_at ≥ (cfg.open_interval_seconds : ℚ) then
      let c := { c with state := .half_open }
      (⟨true, c.state, "CIRCUIT_HALF_OPEN", ""⟩, setCircuit st key c)
    else
      (⟨false, c.state, "CIRCUIT_OPEN", "domain temporarily blocked"⟩, setCircuit st key c)
  else
    (⟨true, c.state, "OK", ""⟩, setCircuit st key c)

/-- Source: `DomainCircuitBreaker.record_failure` (in-memory branch): prune,
append `now`, then open when the windowed count reaches the threshold or
the circuit was half-open. -/
def breaker_record_failure (cfg : BreakerConfig) (st : BreakerCircuits) (domain : String)
    (tenant_id : Option String) (now : ℚ) : CircuitState × BreakerCircuits :=
  let key := circuit_key domain tenant_id
  let c := circuit_prune cfg (circuitFor st key) now
  let c := { c with recent_failures := c.recent_failures ++ [now] }
  let c :=
    if (c.recent_failures.length : Int) ≥ cfg.failure_threshold then
      { c with state := .opened, opened_at := now }
    else if c.state = .half_open then
      { c with state := .opened, opened_at := now }
    else c
  (c.state, setCircuit st key c)

/-- Source: `DomainCircuitBreaker.record_success` (in-memory branch): a half-open
circuit closes and clears its failures; other states are untouched. -/
def breaker_record_success (st : BreakerCircuits) (domain : String)
    (tenant_id : Option String) : CircuitState × BreakerCircuits :=
  let key := circuit_key domain tenant_id
  let c := circuitFor st key
  if c.state = .half_open then
    let c := { c with state := .closed, recent_failures := [] }
    (c.state, setCircuit st key c)
  else
    (c.state, setCircuit st key c)

/-! ## Network observer (`app/core/v2/network_observer.py`)

Only the response-event fields the claims mention are modelled: the
status class and the silent-failure flag with its error signature. A
response reaching `_handle_response` is its status, its `content-type`
header, and `await response.json()` -- `some payload` when the body
parses, `none` when it raises. -/

/-- Source: `NetworkObserver._status_class` (`f"{status // 100}xx"`, Python floor
division). -/
def status_class (status : Option Int) : String :=
  match status with
  | none => "none"
  | some s => toString (Int.fdiv s 100) ++ "xx"

/-- Source: `NetworkObserver._silent_failure` over a parsed body: a dict whose
`success` is the boolean `False`, whose `error` is a str/dict/list (of
any size, the empty string included), or whose `errors` is a non-empty
list. -/
def silent_failure (payload : Json) : Bool × Option String :=
  match payload with
  | .obj kvs =>
    let get : String → Option Json := fun k => ((kvs.find? (fun kv => kv.1 = k)).map (·.2))
    match get "success" with
    | some (.bool false) => (true, some "json_success_false")
    | _ =>
      match get "error" with
      | some (.str _) => (true, some "json_error_present")
      | some (.obj _) => (true, some "json_error_present")
      | some (.arr _) => (true, some "json_error_present")
      | _ =>
        match get "errors" with
        | some (.arr l) => if ¬ l.isEmpty then (true, some "json_errors_nonempty") else (false, none)
        | _ => (false, none)
  | _ => (false, none)

/-- The flag-relevant fragment of `NetworkObserver._handle_response`: a
JSON content type routes the body through `_silent_failure`, a parse
error is itself a silent failure, and any other content type leaves the
flag down. The response's status never enters this computation. -/
def listStartsWith : List Char → List Char → Bool
  | [], _ => true
  | _ :: _, [] => false
  | p :: ps, c :: cs => p = c ∧ listStartsWith ps cs

/-- Python's `needle in haystack` on strings. -/
def listHasInfix (needle : List Char) : List Char → Bool
  | [] => needle.isEmpty
  | c :: rest => listStartsWith needle (c :: rest) ∨ listHasInfix needle rest

def response_silent_flag (content_type : String) (body : Option Json) : Bool × Option String :=
  if listHasInfix "application/json".data content_type.data then
    match body with
    | some payload => silent_failure payload
    | none => (true, some "json_parse_error")
  else (false, none)

/-- The claim's wording of the silent-failure condition, for comparison
with the code: a 2xx JSON payload that signals error -- `success:false`,
a non-empty `error` or `errors` field, or a body that fails to parse. -/
def spec_silent_condition (status : Option Int) (body : Option Json) : Prop :=
  status_class status = "2xx" ∧
    (body = none ∨
     (∃ kvs, body = some (.obj kvs) ∧
       ((kvs.find? (fun kv => kv.1 = "success")).map (·.2) = some (.bool false) ∨
        (∃ v, (kvs.find? (fun kv => kv.1 = "error")).map (·.2) = some v ∧ jtruthy v = true) ∨
        (∃ l, (kvs.find? (fun kv => kv.1 = "errors")).map (·.2) = some (.arr l) ∧ l ≠ []))))

/-- Independent statement of what `_silent_failure` detects on a parsed
dict, used to characterise the flag. -/
def payload_signals_error (payload : Json) : Prop :=
  ∃ kvs, payload = .obj kvs ∧
    ((kvs.find? (fun kv => kv.1 = "success")).map (·.2) = some (.bool false) ∨
     (∃ s, (kvs.find? (fun kv => kv.1 = "error")).map (·.2) = some (.str s)) ∨
     (∃ e, (kvs.find? (fun kv => kv.1 = "error")).map (·.2) = some (.obj e)) ∨
     (∃ l, (kvs.find? (fun kv => kv.1 = "error")).map (·.2) = some (.arr l)) ∨
     (∃ l, (kvs.find? (fun kv => kv.1 = "errors")).map (·.2) = some (.arr l) ∧ l ≠ []))

/-! ## Token budget (`app/core/v2/token_budget.py`)

The trim helpers thread `(payload, notes)` functionally; Python mutates
the nested dicts in place, which `jset` reproduces (existing keys keep
their position). The fixed-cap helpers (`_trim_runtime_events`,
`_trim_network_failures`, `_trim_state_delta_ops`) are their generic
`_to` versions at caps 10 / 8 / 12, which is literally what the source
duplicates. -/

structure BudgetOutcome where
  allowed : Bool
  total_tokens : Nat
  trimmed : Bool
  notes : List String

structure ComponentTokenBudgets where
  max_state_delta_tokens : Nat := 500
  max_network_summary_tokens : Nat := 250
  max_metadata_tokens : Nat := 250

/-- Source: `TokenBudgetManager._trim_runtime_events_to`. -/
def trim_runtime_events_to (payload : Json) (cap : Nat) (notes : List String) :
    Json × List String :=
  match jget payload "metadata" with
  | some (.obj mkvs) =>
    match jget (.obj mkvs) "runtime_events" with
    | some (.arr evs) =>
      if evs.length ≤ cap then (payload, notes)
      else (jset payload "metadata" (jset (.obj mkvs) "runtime_events" (.arr (evs.take cap))),
            notes ++ ["trimmed_runtime_events_to_" ++ toString cap])
    | _ => (payload, notes)
  | _ => (payload, notes)

/-- Source: `TokenBudgetManager._trim_runtime_events` (cap 10). -/
def trim_runtime_events (payload : Json) (notes : List String) : Json × List String :=
  trim_runtime_events_to payload 10 notes

/-- Source: `TokenBudgetManager._trim_metadata_to_minimal`. -/
def trim_metadata_to_minimal (payload : Json) (notes : List String) : Json × List String :=
  match jget payload "metadata" with
  | some (.obj mkvs) =>
    let newMeta : Json :=
      match jget (.obj mkvs) "guard_summary" with
      | some (.obj g) => .obj [("guard_summary", .obj g)]
      | _ => .obj []
    (jset payload "metadata" newMeta, notes ++ ["compressed_metadata_minimal"])
  | _ => (payload, notes)

/-- Source: `TokenBudgetManager._trim_network_failures_to`. -/
def trim_network_failures_to (payload : Json) (cap : Nat) (notes : List String) :
    Json × List String :=
  match jget payload "network_summary" with
  | some (.obj ns) =>
    match jget (.obj ns) "failures" with
    | some (.arr fs) =>
      if fs.length ≤ cap then (payload, notes)
      else (jset payload "network_summary" (jset (.obj ns) "failures" (.arr (fs.take cap))),
            notes ++ ["trimmed_network_failures_to_" ++ toString cap])
    | _ => (payload, notes)
  | _ => (payload, notes)

/-- Source: `TokenBudgetManager._trim_network_failures` (cap 8). -/
def trim_network_failures (payload : Json) (notes : List String) : Json × List String :=
  trim_network_failures_to payload 8 notes

/-- Source: `TokenBudgetManager._trim_network_to_minimal`. -/
def trim_network_to_minimal (payload : Json) (notes : List String) : Json × List String :=
  match jget payload "network_summary" with
  | some (.obj ns) =>
    (jset payload "network_summary" (.obj
      [("total_requests", jgetD (.obj ns) "total_requests" (.num 0)),
       ("total_responses", jgetD (.obj ns) "total_responses" (.num 0)),
       ("total_failures", jgetD (.obj ns) "total_failures" (.num 0)),
       ("failures", .arr [])]), notes ++ ["compressed_network_summary_minimal"])
  | _ => (payload, notes)

/-- One key of the `("element_ops", "form_ops", "error_ops")` loop. -/
def trim_ops_key (cap : Nat) (key : String) (sd : Json) (notes : List String) :
    Json × List String :=
  match jget sd key with
  | some (.arr ops) =>
    if ops.length ≤ cap then (sd, notes)
    else (jset sd key (.arr (ops.take cap)), notes ++ ["trimmed_" ++ key ++ "_to_" ++ toString cap])
  | _ => (sd, notes)

/-- Source: `TokenBudgetManager._trim_state_delta_ops_to`. -/
def trim_state_delta_ops_to (payload : Json) (cap : Nat) (notes : List String) :
    Json × List String :=
  match jget payload "state_delta" with
  | some (.obj sd) =>
    let (sd1, n1) := trim_ops_key cap "element_ops" (.obj sd) notes
    let (sd2, n2) := trim_ops_key cap "form_ops" sd1 n1
    let (sd3, n3) := trim_ops_key cap "error_ops" sd2 n2
    (jset payload "state_delta" sd3, n3)
  | _ => (payload, notes)

/-- Source: `TokenBudgetManager._trim_state_delta_ops` (cap 12). -/
def trim_state_delta_ops (payload : Json) (notes : List String) : Json × List String :=
  trim_state_delta_ops_to payload 12 notes

/-- Source: `TokenBudgetManager._trim_state_delta_to_minimal`. -/
def trim_state_delta_to_minimal (payload : Json) (notes : List String) : Json × List String :=
  match jget payload "state_delta" with
  | some (.obj sd) =>
    (jset payload "state_delta" (.obj
      [("from_state_id", jgetD (.obj sd) "from_state_id" .null),
       ("to_state_id", jgetD (.obj sd) "to_state_id" .null),
       ("changed_sections", jgetD (.obj sd) "changed_sections" (.arr [])),
       ("section_hashes", jgetD (.obj sd) "section_hashes" (.obj [])),
       ("element_ops", .arr []),
       ("form_ops", .arr []),
       ("error_ops", .arr []),
       ("network_delta", .obj [])]), notes ++ ["compressed_state_delta_minimal"])
  | _ => (payload, notes)

/-- Source: `TokenBudgetManager._component_tokens`. -/
def component_tokens (payload : Json) (key : String) : Nat :=
  match jget payload key with
  | none => 0
  | some v => estimate_tokens (.obj [(key, v)])

/-- Source: `TokenBudgetManager._enforce_component_budgets`: three escalating
trims per component, each re-measured. -/
def enforce_component_budgets (payload : Json) (budgets : ComponentTokenBudgets)
    (notes : List String) : Json × List String :=
  let (p, n) :=
    if component_tokens payload "metadata" > budgets.max_metadata_tokens then
      trim_runtime_events payload notes
    else (payload, notes)
  let (p, n) :=
    if component_tokens p "metadata" > budgets.max_metadata_tokens then
      trim_runtime_events_to p 5 n
    else (p, n)
  let (p, n) :=
    if component_tokens p "metadata" > budgets.max_metadata_tokens then
      trim_metadata_to_minimal p n
    else (p, n)
  let (p, n) :=
    if component_tokens p "network_summary" > budgets.max_network_summary_tokens then
      trim_network_failures p n
    else (p, n)
  let (p, n) :=
    if component_tokens p "network_summary" > budgets.max_network_summary_tokens then
      trim_network_failures_to p 4 n
    else (p, n)
  let (p, n) :=
    if component_tokens p "network_summary" > budgets.max_network_summary_tokens then
      trim_network_to_minimal p n
    else (p, n)
  let (p, n) :=
    if component_tokens p "state_delta" > budgets.max_state_delta_tokens then
      trim_state_delta_ops p n
    else (p, n)
  let (p, n) :=
    if component_tokens p "state_delta" > budgets.max_state_delta_tokens then
      trim_state_delta_ops_to p 6 n
    else (p, n)
  let (p, n) :=
    if component_tokens p "state_delta" > budgets.max_state_delta_tokens then
      trim_state_delta_to_minimal p n
    else (p, n)
  (p, n)

/-- The hard-stop step of `enforce`: collapse metadata to
`{budget_truncated, notes}` and compress telemetry. -/
def budget_hard_stop (payload : Json) (notes : List String) : Json × List String :=
  let (p, n) :=
    match jget payload "metadata" with
    | some (.obj _) =>
      (jset payload "metadata" (.obj
        [("budget_truncated", .bool true),
         ("notes", .arr (notes.map Json.str))]), notes ++ ["dropped_metadata_payload"])
    | _ => (payload, notes)
  match jget p "telemetry" with
  | some (.obj t) =>
    (jset p "telemetry" (.obj
      [("elapsed_ms", jgetD (.obj t) "elapsed_ms" .null),
       ("counters", jgetD (.obj t) "counters" (.obj []))]), n ++ ["compressed_telemetry"])
  | _ => (p, n)

/-- Source: `TokenBudgetManager.enforce`: component budgets first, then the
deterministic global trim sequence, then the hard stop; every
`allowed=True` exit is guarded by `total <= limit`, and the final exit
reports `allowed = (total <= limit)`. -/
def budget_enforce (payload : Json) (limit : Nat) (budgets : ComponentTokenBudgets) :
    Json × BudgetOutcome :=
  let (p, notes) := enforce_component_budgets payload budgets []
  let total := estimate_tokens p
  if total ≤ limit then
    (p, ⟨true, total, ¬ notes.isEmpty, notes⟩)
  else
    let (p, notes) := trim_runtime_events p notes
    let total := estimate_tokens p
    if total ≤ limit then (p, ⟨true, total, true, notes⟩)
    else
      let (p, notes) := trim_network_failures p notes
      let total := estimate_tokens p
      if total ≤ limit then (p, ⟨true, total, true, notes⟩)
      else
        let (p, notes) := trim_state_delta_ops p notes
        let total := estimate_tokens p
        if total ≤ limit then (p, ⟨true, total, true, notes⟩)
        else
          let (p, notes) := budget_hard_stop p notes
          let total := estimate_tokens p
          (p, ⟨decide (total ≤ limit), total, true, notes⟩)

/-! ## Predator engine (`app/core/v2/predator_v2.py`)

`execute_contract`'s idempotency layers and the budget envelope. After
the ledger and audit-fallback checks, the source's validation, quota,
session, security, circuit-breaker, engine, budget and artifact-quota
stages each finish in exactly one `_audit_and_cache(...)` call; the
`pipeline` argument stands for the result those stages hand it. The
returned flag records whether that non-cached path ran. -/

def jsonOptStr : Json → Option String
  | .str s => some s
  | _ => none

def jsonArrList : Json → List Json
  | .arr l => l
  | _ => []

/-- The minimal result `execute_contract` reconstructs from an audit
record found by the cross-process idempotency fallback. -/
def restore_result (r : AuditRecord) : ActionExecutionResult :=
  { action_id := r.action_id
    success := r.success
    failure_code := jsonOptStr r.failure_code
    attempts := 1
    verification_passed := r.success
    pre_state_id := jsonOptStr r.pre_state_id
    post_state_id := jsonOptStr r.post_state_id
    state_delta := r.state_delta
    network_summary := r.network_summary
    telemetry := r.telemetry
    artifacts := jsonArrList r.artifacts
    metadata := r.metadata }

structure PredatorState where
  ledger : List (String × ActionExecutionResult) := []
  audit : AuditState := {}

def ledger_lookup (ledger : List (String × ActionExecutionResult)) (aid : String) :
    Option ActionExecutionResult :=
  (ledger.find? (fun kv => kv.1 = aid)).map (·.2)

def ledger_set (aid : String) (v : ActionExecutionResult) :
    List (String × ActionExecutionResult) → List (String × ActionExecutionResult)
  | [] => [(aid, v)]
  | kv :: rest => if kv.1 = aid then (aid, v) :: rest else kv :: ledger_set aid v rest

/-- Source: `PredatorEngineV2._audit_and_cache`: store in the ledger, append the
audit record, return the result. -/
def audit_and_cache (signing_key : List Nat) (tenant_id workflow_id action_id
    canonical_contract_json : String) (result : ActionExecutionResult) (ts : String)
    (st : PredatorState) : ActionExecutionResult × PredatorState :=
  let ledger := ledger_set action_id result st.ledger
  let audit := (audit_append signing_key tenant_id workflow_id st.audit
    ⟨ts, action_id, canonical_contract_json, result.to_dict⟩).2
  (result, { ledger := ledger, audit := audit })

/-- Source: `PredatorEngineV2.execute_contract`: in-memory ledger hit, else
audit-record fallback (cached without a new append), else the execution
pipeline followed by `_audit_and_cache`. -/
def execute_contract (signing_key : List Nat) (tenant_id workflow_id : String)
    (c : ActionContract) (pipeline : ActionExecutionResult) (ts : String)
    (st : PredatorState) : ActionExecutionResult × PredatorState × Bool :=
  let action_id := c.action_id
  let canonical_contract_json := c.canonical_json
  match ledger_lookup st.ledger action_id with
  | some cached => (cached, st, false)
  | none =>
    match get_record_by_action st.audit.records action_id with
    | some existing =>
      let restored := restore_result existing
      (restored, { st with ledger := ledger_set action_id restored st.ledger }, false)
    | none =>
      let (r, st') := audit_and_cache signing_key tenant_id workflow_id action_id
        canonical_contract_json pipeline ts st
      (r, st', true)

/-- The result-payload step of `execute_contract` (lines 311-338): apply
the token budget; a disallowed outcome replaces the evidence by the
minimal `BUDGET_EXCEEDED` envelope. -/
def budget_envelope (result : ActionExecutionResult) (outcome : BudgetOutcome) : Json :=
  .obj [("action_id", .str result.action_id),
        ("success", .bool false),
        ("failure_code", .str "BUDGET_EXCEEDED"),
        ("attempts", .num result.attempts),
        ("escalation", match result.escalation with | none => .null | some e => .str e.value),
        ("verification_passed", .bool false),
        ("pre_state_id", optStrJson result.pre_state_id),
        ("post_state_id", optStrJson result.post_state_id),
        ("state_delta", .obj []),
        ("network_summary", .obj []),
        ("telemetry", .obj [("budget_tokens", .num outcome.total_tokens)]),
        ("artifacts", .arr result.artifacts),
        ("metadata", .obj [("budget_notes", .arr (outcome.notes.map Json.str))])]

def budgeted_payload (result : ActionExecutionResult) (limit : Nat)
    (budgets : ComponentTokenBudgets) : Json :=
  let (p, outcome) := budget_enforce result.to_dict limit budgets
  if outcome.allowed then p else budget_envelope result outcome

/-! ## Sample values used by witnesses and counterexamples -/

/-- A click contract guarded by one wait condition (the default retry
policy allows 2 attempts and retries `ACTION_EXECUTION_FAILED`). -/
def sampleClickContract : ActionContract :=
  { workflow_id := "wf-1", run_id := "run-1", step_index := 0, intent := "Click submit",
    action_spec := { action_type := .click, selector := some "#submit" },
    wait_conditions := [{ kind := "selector" }] }

/-- An environment whose every dispatch attempt raises. -/
def allRaiseEnv : EngineEnv :=
  { pre_state_id := "s_pre", attempt_outcome := fun _ => .raises }

/-- A pipeline result standing for what the execution stages produce. -/
def sampleResult : ActionExecutionResult :=
  { action_id := "act_sample", success := true }

/-- A retryable failing attempt, as C3 quantifies it: the dispatch
raises and `ACTION_EXECUTION_FAILED` is retryable, or verification fails
and `POSTCONDITION_FAILED` is retryable. -/
def retryable_failing (c : ActionContract) : AttemptOutcome → Prop
  | .raises => "ACTION_EXECUTION_FAILED" ∈ c.retry.retryable_failure_codes
  | .verified b => b = false ∧ "POSTCONDITION_FAILED" ∈ c.retry.retryable_failure_codes

/-- Base-256 value of a byte list (little-endian), used to map digests
into a finite type. -/
def byteListVal : List Nat → Nat
  | [] => 0
  | b :: rest => b + 256 * byteListVal rest

/-- A family of pairwise distinct contracts (their intents differ). -/
def mkIntentContract (n : Nat) : ActionContract :=
  { workflow_id := "wf", run_id := "run", step_index := 0,
    intent := String.mk (List.replicate n 'a') }

/-- The value of the 12 digest bytes that determine `action_id`'s 24 hex
characters, as an element of the finite type `Fin (256 ^ 12)`. -/
def contractDigestVal (c : ActionContract) : Fin (256 ^ 12) :=
  ⟨byteListVal ((sha256Bytes (utf8Bytes c.canonical_json)).take 12) % 256 ^ 12,
   Nat.mod_lt _ (by positivity)⟩

/-! # Theorems -/

/-! ### C10 -/

/-- C10: for a (tenant, workflow) whose audit log file does not exist or
is empty, `list_records` yields no records and `verify_chain` accepts
vacuously with `(True, "ok")` instead of reporting a failure. -/
theorem c10_empty_chain_verifies :
    (∀ (sk : List Nat) (parse : String → AuditRecord),
      verify_chain sk (list_records_file none parse) = (true, "ok")) ∧
    (∀ (sk : List Nat) (parse : String → AuditRecord),
      verify_chain sk (list_records_file (some []) parse) = (true, "ok")) := by
  exact ⟨fun sk parse => rfl, fun sk parse => rfl⟩

/-! ### C5 -/

theorem attempt_loop_code_ne_missing_guard (c : ActionContract) (env : EngineEnv)
    (aid : String) : ∀ (fuel attempts : Nat) (backoff : Int),
    (attempt_loop c env aid fuel attempts backoff).1.failure_code ≠
      some "MISSING_POST_ACTION_GUARD" := by
  intro fuel
  induction fuel with
  | zero => intro attempts backoff; simp [attempt_loop]
  | succ f ih =>
    intro attempts backoff
    simp only [attempt_loop]
    split
    · simp
    · split
      · simp
      · simpa using ih (attempts + 1) (next_backoff backoff c.retry)
    · split
      · simp
      · simpa using ih (attempts + 1) (next_backoff backoff c.retry)

/-- C5: a contract whose action is not `wait_only` and that carries no
wait conditions, no expected postconditions and no verification rules is
rejected with `success=false`, `failure_code=MISSING_POST_ACTION_GUARD`
and no dispatch at all; `wait_only` is the only action type that can run
with none of the three post-guards (it never yields that failure code). -/
theorem c5_missing_post_guard :
    (∀ (c : ActionContract) (env : EngineEnv),
      c.action_spec.action_type ≠ ActionType.wait_only → has_post_guard c = false →
        (engine_execute c env).1.success = false ∧
        (engine_execute c env).1.failure_code = some "MISSING_POST_ACTION_GUARD" ∧
        (engine_execute c env).2 = []) ∧
    (∀ (c : ActionContract) (env : EngineEnv),
      c.action_spec.action_type = ActionType.wait_only →
        (engine_execute c env).1.failure_code ≠ some "MISSING_POST_ACTION_GUARD") := by
  constructor
  · intro c env h1 h2
    simp [engine_execute, h1, h2]
  · intro c env h1
    have hcond : ¬ (c.action_spec.action_type ≠ ActionType.wait_only ∧ has_post_guard c = false) := by
      intro h; exact h.1 h1
    simp only [engine_execute, if_neg hcond]
    split
    · simp
    · exact attempt_loop_code_ne_missing_guard c env c.action_id _ _ _

/-! ### Circuit breaker helper lemmas -/

theorem circuitFor_setCircuit (st : BreakerCircuits) (key : String) (c : DomainCircuit) :
    circuitFor (setCircuit st key c) key = c := by
  induction st with
  | nil => simp [setCircuit, setCircuit.jsetCircuit, circuitFor]
  | cons kv rest ih =>
    by_cases h : kv.1 = key
    · simp [setCircuit, setCircuit.jsetCircuit, h, circuitFor]
    · simp only [setCircuit, setCircuit.jsetCircuit, if_neg h] at *
      simpa [circuitFor, List.find?, h] using ih

/-! ### C7 -/

/-- C7 counterexample: with threshold 1, window 60 and open interval 30,
one failure at t=0 opens the circuit; the allow at t=30 transitions to
half-open and admits, and a second allow at t=31 -- with no success or
failure recorded in between -- is admitted as well, so the half-open
probe is not single-shot. -/
theorem c7_counterexample_second_allow_admits :
    ((breaker_allow ⟨1, 60, 30⟩
        ((breaker_record_failure ⟨1, 60, 30⟩ [] "example.com" none 0).2)
        "example.com" none 30).1.allowed = true) ∧
    ((breaker_allow ⟨1, 60, 30⟩
        ((breaker_record_failure ⟨1, 60, 30⟩ [] "example.com" none 0).2)
        "example.com" none 30).1.state = CircuitState.half_open) ∧
    ((breaker_allow ⟨1, 60, 30⟩
        ((breaker_allow ⟨1, 60, 30⟩
          ((breaker_record_failure ⟨1, 60, 30⟩ [] "example.com" none 0).2)
          "example.com" none 30).2)
        "example.com" none 31).1.allowed = true) := by
  refine ⟨?_, ?_, ?_⟩ <;>
    · norm_num [breaker_allow, breaker_record_failure, circuit_key, circuitFor, circuit_prune,
        setCircuit, setCircuit.jsetCircuit, List.find?, List.dropWhile]
      try rfl

/-- C7 amended: after the open-to-half-open transition the probe is not
limited to one action: while a circuit is half-open, every `allow` call
admits (`allowed=true`) and leaves the circuit half-open; the state only
leaves half-open when `record_success` closes it or `record_failure`
re-opens it. -/
theorem c7_half_open_probe_amended :
    (∀ (cfg : BreakerConfig) (st : BreakerCircuits) (domain : String)
        (tenant : Option String) (now : ℚ),
      (circuitFor st (circuit_key domain tenant)).state = CircuitState.half_open →
        (breaker_allow cfg st domain tenant now).1.allowed = true ∧
        (circuitFor (breaker_allow cfg st domain tenant now).2
          (circuit_key domain tenant)).state = CircuitState.half_open) ∧
    (∀ (st : BreakerCircuits) (domain : String) (tenant : Option String),
      (circuitFor st (circuit_key domain tenant)).state = CircuitState.half_open →
        (breaker_record_success st domain tenant).1 = CircuitState.closed) ∧
    (∀ (cfg : BreakerConfig) (st : BreakerCircuits) (domain : String)
        (tenant : Option String) (now : ℚ),
      (circuitFor st (circuit_key domain tenant)).state = CircuitState.half_open →
        (breaker_record_failure cfg st domain tenant now).1 = CircuitState.opened) := by
  refine ⟨?_, ?_, ?_⟩
  · intro cfg st domain tenant now h
    have hne : (circuitFor st (circuit_key domain tenant)).state ≠ CircuitState.opened := by
      rw [h]; decide
    simp [breaker_allow, if_neg hne, circuitFor_setCircuit, h]
  · intro st domain tenant h
    simp [breaker_record_success, h]
  · intro cfg st domain tenant now h
    simp only [breaker_record_failure]
    split
    · simp
    · simp [circuit_prune, h]

/-! ### C6 -/

theorem sorted_dropWhile_lt_eq_filter (cutoff : ℚ) :
    ∀ (l : List ℚ), l.Sorted (· ≤ ·) →
      l.dropWhile (fun t => t < cutoff) = l.filter (fun t => cutoff ≤ t) := by
  intro l h
  induction l with
  | nil => rfl
  | cons a l ih =>
    rw [List.sorted_cons] at h
    by_cases ha : a < cutoff
    · rw [List.dropWhile_cons_of_pos (by simpa using ha),
        List.filter_cons_of_neg (by simpa using not_le.mpr ha)]
      exact ih h.2
    · rw [List.dropWhile_cons_of_neg (by simpa using ha),
        List.filter_cons_of_pos (by simpa using not_lt.mp ha)]
      have : l.filter (fun t => decide (cutoff ≤ t)) = l :=
        List.filter_eq_self.mpr fun b hb => by
          simpa using le_trans (not_lt.mp ha) (h.1 b hb)
      rw [this]

/-- C6: for each (tenant, domain), a `record_failure` that brings the
count of failures inside the rolling window to the threshold (the stored
timestamps are chronological, as appends with non-decreasing clocks keep
them) opens the circuit with `opened_at = now`; while open, `allow`
before `open_interval` has elapsed denies with `CIRCUIT_OPEN` and leaves
the circuit unchanged, and once `now - opened_at ≥ open_interval` the
next `allow` flips it to half-open and admits. -/
theorem c6_breaker_open_and_recovery :
    (∀ (cfg : BreakerConfig) (st : BreakerCircuits) (domain : String)
        (tenant : Option String) (now : ℚ),
      (circuitFor st (circuit_key domain tenant)).recent_failures.Sorted (· ≤ ·) →
      ((((circuitFor st (circuit_key domain tenant)).recent_failures.filter
          (fun t => now - (cfg.failure_window_seconds : ℚ) ≤ t)).length + 1 : Int) ≥
          cfg.failure_threshold) →
        (breaker_record_failure cfg st domain tenant now).1 = CircuitState.opened ∧
        (circuitFor (breaker_record_failure cfg st domain tenant now).2
          (circuit_key domain tenant)).state = CircuitState.opened ∧
        (circuitFor (breaker_record_failure cfg st domain tenant now).2
          (circuit_key domain tenant)).opened_at = now) ∧
    (∀ (cfg : BreakerConfig) (st : BreakerCircuits) (domain : String)
        (tenant : Option String) (now : ℚ),
      (circuitFor st (circuit_key domain tenant)).state = CircuitState.opened →
      now - (circuitFor st (circuit_key domain tenant)).opened_at <
        (cfg.open_interval_seconds : ℚ) →
        (breaker_allow cfg st domain tenant now).1 =
          ⟨false, CircuitState.opened, "CIRCUIT_OPEN", "domain temporarily blocked"⟩ ∧
        circuitFor (breaker_allow cfg st domain tenant now).2 (circuit_key domain tenant) =
          circuitFor st (circuit_key domain tenant)) ∧
    (∀ (cfg : BreakerConfig) (st : BreakerCircuits) (domain : String)
        (tenant : Option String) (now : ℚ),
      (circuitFor st (circuit_key domain tenant)).state = CircuitState.opened →
      now - (circuitFor st (circuit_key domain tenant)).opened_at ≥
        (cfg.open_interval_seconds : ℚ) →
        (breaker_allow cfg st domain tenant now).1.allowed = true ∧
        (breaker_allow cfg st domain tenant now).1.state = CircuitState.half_open ∧
        (circuitFor (breaker_allow cfg st domain tenant now).2
          (circuit_key domain tenant)).state = CircuitState.half_open) := by
  refine ⟨?_, ?_, ?_⟩
  · intro cfg st domain tenant now hs hcnt
    have hprune : (circuit_prune cfg (circuitFor st (circuit_key domain tenant)) now).recent_failures =
        (circuitFor st (circuit_key domain tenant)).recent_failures.filter
          (fun t => now - (cfg.failure_window_seconds : ℚ) ≤ t) := by
      simpa [circuit_prune] using
        sorted_dropWhile_lt_eq_filter (now - (cfg.failure_window_seconds : ℚ)) _ hs
    have hcond : (((circuit_prune cfg (circuitFor st (circuit_key domain tenant)) now).recent_failures
        ++ [now]).length : Int) ≥ cfg.failure_threshold := by
      rw [hprune]
      simpa using hcnt
    simp only [breaker_record_failure, if_pos hcond]
    simp [circuitFor_setCircuit]
  · intro cfg st domain tenant now hst helapsed
    have hne : ¬ now - (circuitFor st (circuit_key domain tenant)).opened_at ≥
        (cfg.open_interval_seconds : ℚ) := not_le.mpr helapsed
    simp only [breaker_allow, if_pos hst, if_neg hne]
    simp [circuitFor_setCircuit, hst]
  · intro cfg st domain tenant now hst helapsed
    simp only [breaker_allow, if_pos hst, if_pos helapsed]
    simp [circuitFor_setCircuit]

/-! ### C8 -/

theorem silent_failure_fst_iff (p : Json) :
    (silent_failure p).1 = true ↔ payload_signals_error p := by
  cases p
  case obj kvs =>
    constructor
    · intro hflag
      simp only [silent_failure] at hflag
      split at hflag
      · rename_i heq
        exact ⟨kvs, rfl, Or.inl heq⟩
      · split at hflag
        · rename_i s heq
          exact ⟨kvs, rfl, Or.inr (Or.inl ⟨s, heq⟩)⟩
        · rename_i e heq
          exact ⟨kvs, rfl, Or.inr (Or.inr (Or.inl ⟨e, heq⟩))⟩
        · rename_i l heq
          exact ⟨kvs, rfl, Or.inr (Or.inr (Or.inr (Or.inl ⟨l, heq⟩)))⟩
        · split at hflag
          · rename_i l heq
            split at hflag
            · rename_i hne
              exact ⟨kvs, rfl, Or.inr (Or.inr (Or.inr (Or.inr ⟨l, heq, by simpa using hne⟩)))⟩
            · simp at hflag
          · simp at hflag
    · rintro ⟨kvs', hk, hcase⟩
      cases hk
      simp only [silent_failure]
      split
      · rfl
      · split
        · rfl
        · rfl
        · rfl
        · split
          · split
            · rfl
            · rename_i l heq hne
              exfalso
              rcases hcase with h1 | ⟨s, h2⟩ | ⟨e, h3⟩ | ⟨l2, h4⟩ | ⟨l2, h5, hne2⟩
              · solve_by_elim
              · solve_by_elim
              · solve_by_elim
              · solve_by_elim
              · have h6 := heq.symm.trans h5
                injection h6 with h7
                injection h7 with h8
                subst h8
                exact hne2 (List.isEmpty_iff.mp (not_not.mp hne))
          · exfalso
            rcases hcase with h1 | ⟨s, h2⟩ | ⟨e, h3⟩ | ⟨l2, h4⟩ | ⟨l2, h5, hne2⟩ <;>
              solve_by_elim
  all_goals simp [silent_failure, payload_signals_error]

/-- C8 counterexample: a 500 response with a JSON content type whose body
is `{"success": false}` gets `silent_failure = True` from the observer,
although its status class is `"5xx"`, not `"2xx"`: the claim's
"responses outside these conditions carry silent_failure == false" fails
because the code never consults the status. -/
theorem c8_counterexample_non_2xx_flagged :
    (response_silent_flag "application/json"
      (some (.obj [("success", .bool false)]))).1 = true ∧
    status_class (some 500) = "5xx" ∧
    ¬ spec_silent_condition (some 500) (some (.obj [("success", .bool false)])) := by
  exact ⟨by decide, by decide, fun h => absurd h.1 (by decide)⟩

/-- C8 amended: the observer sets the silent-failure flag exactly when
the content type contains `application/json` and either the body fails
to parse or it parses to a dict that signals error (`success` equal to
the boolean `false`, an `error` field that is a string, dict or list --
even empty -- or a non-empty `errors` list); the response's status class
plays no part in the flag. -/
theorem c8_silent_flag_characterisation :
    ∀ (content_type : String) (body : Option Json),
      ((response_silent_flag content_type body).1 = true ↔
        (listHasInfix "application/json".data content_type.data = true ∧
          (body = none ∨ ∃ p, body = some p ∧ payload_signals_error p))) := by
  intro ct body
  simp only [response_silent_flag]
  split
  · rename_i hct
    cases body with
    | none => simp [hct]
    | some p => simp [hct, silent_failure_fst_iff]
  · rename_i hct
    simp [hct]

/-! ### C3 -/

theorem attempt_loop_all_retryable (c : ActionContract) (env : EngineEnv) (aid : String) :
    ∀ (fuel attempts : Nat) (backoff : Int),
      ((attempts : Int) + fuel = c.retry.max_attempts) →
      1 ≤ fuel →
      (∀ k, attempts + 1 ≤ k → (k : Int) ≤ c.retry.max_attempts →
        retryable_failing c (env.attempt_outcome k)) →
      (attempt_loop c env aid fuel attempts backoff).1.success = false ∧
      (attempt_loop c env aid fuel attempts backoff).1.attempts = attempts + fuel ∧
      (attempt_loop c env aid fuel attempts backoff).1.failure_code =
        some ((env.attempt_outcome (attempts + fuel)).failure_code) ∧
      (attempt_loop c env aid fuel attempts backoff).1.escalation =
        some c.escalation.on_exhausted_retries := by
  intro fuel
  induction fuel with
  | zero => intro attempts backoff h1 h2 h3; omega
  | succ f ih =>
    intro attempts backoff h1 h2 h3
    have hk := h3 (attempts + 1) (le_refl _) (by push_cast at h1 ⊢; omega)
    rcases Nat.eq_zero_or_pos f with hf | hf
    · subst hf
      cases ho : env.attempt_outcome (attempts + 1) with
      | raises =>
        rw [ho] at hk
        have hcond : "ACTION_EXECUTION_FAILED" ∉ c.retry.retryable_failure_codes ∨
            c.retry.max_attempts ≤ (attempts : Int) + 1 := by
          right; push_cast at h1 ⊢; omega
        simp [attempt_loop, ho, hcond, AttemptOutcome.failure_code]
      | verified b =>
        rw [ho] at hk
        obtain ⟨hb, _⟩ := hk
        subst hb
        have hcond : "POSTCONDITION_FAILED" ∉ c.retry.retryable_failure_codes ∨
            c.retry.max_attempts ≤ (attempts : Int) + 1 := by
          right; push_cast at h1 ⊢; omega
        simp [attempt_loop, ho, hcond, AttemptOutcome.failure_code]
    · have harith : attempts + 1 + f = attempts + (f + 1) := by omega
      have hres := ih (attempts + 1) (next_backoff backoff c.retry)
        (by push_cast at h1 ⊢; omega) (by omega)
        (fun k hk1 hk2 => h3 k (by omega) hk2)
      rw [harith] at hres
      cases ho : env.attempt_outcome (attempts + 1) with
      | raises =>
        rw [ho] at hk
        have hcond : ¬ ("ACTION_EXECUTION_FAILED" ∉ c.retry.retryable_failure_codes ∨
            c.retry.max_attempts ≤ (attempts : Int) + 1) := by
          push_neg
          exact ⟨hk, by push_cast at h1 ⊢; omega⟩
        simpa [attempt_loop, ho, hcond] using hres
      | verified b =>
        rw [ho] at hk
        obtain ⟨hb, hmem⟩ := hk
        subst hb
        have hcond : ¬ ("POSTCONDITION_FAILED" ∉ c.retry.retryable_failure_codes ∨
            c.retry.max_attempts ≤ (attempts : Int) + 1) := by
          push_neg
          exact ⟨hmem, by push_cast at h1 ⊢; omega⟩
        simpa [attempt_loop, ho, hcond] using hres

/-- C3 counterexample: with the default retry policy (`max_attempts = 2`,
`ACTION_EXECUTION_FAILED` retryable) and every attempt raising, the
engine exhausts both attempts yet reports the final attempt's own
failure code, not `RETRY_EXHAUSTED`: the `RETRY_EXHAUSTED` return after
the loop is unreachable once `max_attempts ≥ 1`, because the last
retryable failure returns early with `attempts >= max_attempts`. -/
theorem c3_counterexample_exhaustion_code :
    sampleClickContract.retry.max_attempts = 2 ∧
    (engine_execute sampleClickContract allRaiseEnv).1.attempts = 2 ∧
    (engine_execute sampleClickContract allRaiseEnv).1.failure_code =
      some "ACTION_EXECUTION_FAILED" ∧
    (engine_execute sampleClickContract allRaiseEnv).1.failure_code ≠
      some "RETRY_EXHAUSTED" := by
  exact ⟨rfl, by decide, by decide, by decide⟩

/-- C3 amended: for a contract whose retry policy allows
`max_attempts = N ≥ 1` and whose every attempt ends in a retryable
failure, the terminal result reports the *final attempt's* failure code
(`ACTION_EXECUTION_FAILED` or `POSTCONDITION_FAILED`) with
`attempts = N` and the contract's `on_exhausted_retries` escalation mode
attached; the code `RETRY_EXHAUSTED` is not produced (it would require
`max_attempts ≤ 0`). -/
theorem c3_retry_exhaustion_amended :
    ∀ (c : ActionContract) (env : EngineEnv),
      (c.action_spec.action_type = ActionType.wait_only ∨ has_post_guard c = true) →
      env.preconditions_passed = true →
      (1 : Int) ≤ c.retry.max_attempts →
      (∀ (k : Nat), 1 ≤ k → (k : Int) ≤ c.retry.max_attempts →
        retryable_failing c (env.attempt_outcome k)) →
      (engine_execute c env).1.success = false ∧
      (engine_execute c env).1.attempts = c.retry.max_attempts.toNat ∧
      (engine_execute c env).1.failure_code =
        some ((env.attempt_outcome c.retry.max_attempts.toNat).failure_code) ∧
      (engine_execute c env).1.escalation = some c.escalation.on_exhausted_retries ∧
      (engine_execute c env).1.failure_code ≠ some "RETRY_EXHAUSTED" := by
  intro c env hguard hpre hmax hall
  have hng : ¬ (c.action_spec.action_type ≠ ActionType.wait_only ∧ has_post_guard c = false) := by
    rcases hguard with h | h
    · intro hcon; exact hcon.1 h
    · intro hcon; rw [h] at hcon; simp at hcon
  have hnp : ¬ env.preconditions_passed = false := by rw [hpre]; simp
  simp only [engine_execute, if_neg hng, if_neg hnp]
  have h1 : ((0 : Nat) : Int) + c.retry.max_attempts.toNat = c.retry.max_attempts := by
    push_cast
    omega
  have h2 : 1 ≤ c.retry.max_attempts.toNat := by omega
  have h3 : ∀ (k : Nat), 0 + 1 ≤ k → (k : Int) ≤ c.retry.max_attempts →
      retryable_failing c (env.attempt_outcome k) :=
    fun k hk1 hk2 => hall k (by omega) hk2
  have hres := attempt_loop_all_retryable c env c.action_id c.retry.max_attempts.toNat 0
    c.retry.initial_backoff_ms h1 h2 h3
  simp only [Nat.zero_add] at hres
  refine ⟨hres.1, hres.2.1, hres.2.2.1, hres.2.2.2, ?_⟩
  rw [hres.2.2.1]
  cases env.attempt_outcome c.retry.max_attempts.toNat <;>
    simp [AttemptOutcome.failure_code]

/-- C3 witness at the sample contract and all-raising environment. -/
theorem c3_retry_exhaustion_amended_witness :
    (engine_execute sampleClickContract allRaiseEnv).1.success = false ∧
    (engine_execute sampleClickContract allRaiseEnv).1.attempts =
      sampleClickContract.retry.max_attempts.toNat ∧
    (engine_execute sampleClickContract allRaiseEnv).1.failure_code =
      some ((allRaiseEnv.attempt_outcome
        sampleClickContract.retry.max_attempts.toNat).failure_code) ∧
    (engine_execute sampleClickContract allRaiseEnv).1.escalation =
      some sampleClickContract.escalation.on_exhausted_retries ∧
    (engine_execute sampleClickContract allRaiseEnv).1.failure_code ≠
      some "RETRY_EXHAUSTED" :=
  c3_retry_exhaustion_amended sampleClickContract allRaiseEnv (Or.inr (by decide)) rfl
    (by decide)
    (fun k _ _ => by
      show retryable_failing sampleClickContract AttemptOutcome.raises
      simp only [retryable_failing]
      decide)

/-! ### C9 -/

theorem budget_enforce_allowed (payload : Json) (limit : Nat) (budgets : ComponentTokenBudgets) :
    (budget_enforce payload limit budgets).2.allowed = true →
    estimate_tokens (budget_enforce payload limit budgets).1 ≤ limit := by
  unfold budget_enforce
  rcases h0 : enforce_component_budgets payload budgets [] with ⟨p0, n0⟩
  simp only [h0]
  split
  · intro _; assumption
  · rcases h1 : trim_runtime_events p0 n0 with ⟨p1, n1⟩
    simp only [h1]
    split
    · intro _; assumption
    · rcases h2 : trim_network_failures p1 n1 with ⟨p2, n2⟩
      simp only [h2]
      split
      · intro _; assumption
      · rcases h3 : trim_state_delta_ops p2 n2 with ⟨p3, n3⟩
        simp only [h3]
        split
        · intro _; assumption
        · rcases h4 : budget_hard_stop p3 n3 with ⟨p4, n4⟩
          simp only [h4]
          intro h
          exact of_decide_eq_true h

/-- C9: for every result payload, the enforcement step either emits a
payload whose estimated total tokens fit under the hard limit, or
replaces the evidence by the minimal failure envelope: a payload with
`success=false` and `failure_code=BUDGET_EXCEEDED`. No over-limit
payload is emitted as a success result. -/
theorem c9_token_budget_enforcement :
    ∀ (r : ActionExecutionResult) (limit : Nat) (budgets : ComponentTokenBudgets),
      estimate_tokens (budgeted_payload r limit budgets) ≤ limit ∨
      (jget (budgeted_payload r limit budgets) "failure_code" =
          some (Json.str "BUDGET_EXCEEDED") ∧
        jget (budgeted_payload r limit budgets) "success" = some (Json.bool false)) := by
  intro r limit budgets
  unfold budgeted_payload
  rcases hbe : budget_enforce r.to_dict limit budgets with ⟨p, outcome⟩
  simp only
  by_cases hall : outcome.allowed = true
  · left
    rw [if_pos hall]
    have := budget_enforce_allowed r.to_dict limit budgets
    rw [hbe] at this
    exact this hall
  · right
    rw [if_neg hall]
    constructor <;> rfl

/-! ### C4 -/

theorem ledger_lookup_set_self (l : List (String × ActionExecutionResult)) (aid : String)
    (v : ActionExecutionResult) : ledger_lookup (ledger_set aid v l) aid = some v := by
  induction l with
  | nil => simp [ledger_set, ledger_lookup]
  | cons kv rest ih =>
    by_cases h : kv.1 = aid
    · simp [ledger_set, h, ledger_lookup]
    · simp only [ledger_set, if_neg h]
      simpa [ledger_lookup, List.find?, h] using ih

theorem get_record_none_filter_nil (records : List AuditRecord) (aid : String) :
    get_record_by_action records aid = none →
    records.filter (fun r => r.action_id = aid) = [] := by
  intro h
  rw [get_record_by_action, List.find?_eq_none] at h
  exact List.filter_eq_nil_iff.mpr fun r hr => by simpa using h r hr

/-- C4: executing a contract and then a canonically equal contract
through the engine is idempotent. Both runs use the same `action_id`;
the first run executes the pipeline and audits it; the second returns
the ledger-cached prior result with no pipeline run, no state change and
no new audit record, leaving exactly one audit record for that action
id. -/
theorem c4_idempotent_execution :
    ∀ (sk : List Nat) (tenant workflow : String) (c c' : ActionContract)
      (pipeline pipeline' : ActionExecutionResult) (ts1 ts2 : String) (st0 : PredatorState),
      c'.canonical_json = c.canonical_json →
      ledger_lookup st0.ledger c.action_id = none →
      get_record_by_action st0.audit.records c.action_id = none →
      c'.action_id = c.action_id ∧
      (execute_contract sk tenant workflow c pipeline ts1 st0).1 = pipeline ∧
      (execute_contract sk tenant workflow c pipeline ts1 st0).2.2 = true ∧
      (execute_contract sk tenant workflow c' pipeline' ts2
        (execute_contract sk tenant workflow c pipeline ts1 st0).2.1).1 = pipeline ∧
      (execute_contract sk tenant workflow c' pipeline' ts2
        (execute_contract sk tenant workflow c pipeline ts1 st0).2.1).2.1 =
        (execute_contract sk tenant workflow c pipeline ts1 st0).2.1 ∧
      (execute_contract sk tenant workflow c' pipeline' ts2
        (execute_contract sk tenant workflow c pipeline ts1 st0).2.1).2.2 = false ∧
      (((execute_contract sk tenant workflow c pipeline ts1 st0).2.1).audit.records.filter
        (fun rec => rec.action_id = c.action_id)).length = 1 := by
  intro sk tenant workflow c c' pipeline pipeline' ts1 ts2 st0 hcanon hledger haudit
  have haid : c'.action_id = c.action_id := by
    unfold ActionContract.action_id
    rw [hcanon]
  have hfirst : execute_contract sk tenant workflow c pipeline ts1 st0 =
      (pipeline,
        { ledger := ledger_set c.action_id pipeline st0.ledger
          audit := (audit_append sk tenant workflow st0.audit
            ⟨ts1, c.action_id, c.canonical_json, pipeline.to_dict⟩).2 }, true) := by
    simp [execute_contract, hledger, haudit, audit_and_cache]
  refine ⟨haid, ?_, ?_, ?_, ?_, ?_, ?_⟩
  · rw [hfirst]
  · rw [hfirst]
  · rw [hfirst]
    simp only [execute_contract, haid, ledger_lookup_set_self]
  · rw [hfirst]
    simp only [execute_contract, haid, ledger_lookup_set_self]
  · rw [hfirst]
    simp only [execute_contract, haid, ledger_lookup_set_self]
  · rw [hfirst]
    have hrecords : (audit_append sk tenant workflow st0.audit
        ⟨ts1, c.action_id, c.canonical_json, pipeline.to_dict⟩).2.records =
        st0.audit.records ++ [(audit_append sk tenant workflow st0.audit
          ⟨ts1, c.action_id, c.canonical_json, pipeline.to_dict⟩).1] := rfl
    have hrecaid : (audit_append sk tenant workflow st0.audit
        ⟨ts1, c.action_id, c.canonical_json, pipeline.to_dict⟩).1.action_id =
        c.action_id := rfl
    simp only [hrecords, List.filter_append, List.length_append,
      get_record_none_filter_nil st0.audit.records c.action_id haudit]
    simp [hrecaid]

/-- C4 witness: both calls on the sample contract from the empty engine
state. -/
theorem c4_idempotent_execution_witness :
    sampleClickContract.action_id = sampleClickContract.action_id ∧
    (execute_contract [] "tenant-a" "wf-1" sampleClickContract sampleResult "t1"
      {}).1 = sampleResult ∧
    (execute_contract [] "tenant-a" "wf-1" sampleClickContract sampleResult "t1"
      {}).2.2 = true ∧
    (execute_contract [] "tenant-a" "wf-1" sampleClickContract sampleResult "t2"
      (execute_contract [] "tenant-a" "wf-1" sampleClickContract sampleResult "t1"
        {}).2.1).1 = sampleResult ∧
    (execute_contract [] "tenant-a" "wf-1" sampleClickContract sampleResult "t2"
      (execute_contract [] "tenant-a" "wf-1" sampleClickContract sampleResult "t1"
        {}).2.1).2.1 =
      (execute_contract [] "tenant-a" "wf-1" sampleClickContract sampleResult "t1"
        {}).2.1 ∧
    (execute_contract [] "tenant-a" "wf-1" sampleClickContract sampleResult "t2"
      (execute_contract [] "tenant-a" "wf-1" sampleClickContract sampleResult "t1"
        {}).2.1).2.2 = false ∧
    (((execute_contract [] "tenant-a" "wf-1" sampleClickContract sampleResult "t1"
        {}).2.1).audit.records.filter
      (fun rec => rec.action_id = sampleClickContract.action_id)).length = 1 :=
  c4_idempotent_execution [] "tenant-a" "wf-1" sampleClickContract sampleClickContract
    sampleResult sampleResult "t1" "t2" {} rfl rfl rfl

/-! ### C1 -/

theorem wordBytes_lt (wd : Nat) : ∀ b ∈ wordBytes wd, b < 256 := by
  intro b hb
  simp only [wordBytes, List.mem_cons, List.not_mem_nil, or_false] at hb
  rcases hb with h | h | h | h <;> subst h <;> exact Nat.mod_lt _ (by norm_num)

theorem wordsToBytes_lt (ws : List Nat) : ∀ b ∈ wordsToBytes ws, b < 256 := by
  intro b hb
  rw [wordsToBytes, List.mem_flatMap] at hb
  obtain ⟨w, _, hw⟩ := hb
  exact wordBytes_lt w b hw

theorem wordsToBytes_length (ws : List Nat) : (wordsToBytes ws).length = 4 * ws.length := by
  induction ws with
  | nil => rfl
  | cons w rest ih =>
    rw [wordsToBytes, List.flatMap_cons, List.length_append, ← wordsToBytes, ih]
    simp [wordBytes]
    omega

theorem stateAdd_length (h : List Nat) (st : Sha8) : (stateAdd h st).length = 8 := by
  obtain ⟨a, b, c, d, e, f, g, hh⟩ := st
  rfl

theorem shaCompress_length (h block : List Nat) : (shaCompress h block).length = 8 := by
  unfold shaCompress
  exact stateAdd_length _ _

theorem foldl_shaCompress_length (blocks : List Nat) (padded : List Nat) :
    ∀ h : List Nat, h.length = 8 →
    (blocks.foldl (fun h i => shaCompress h ((padded.drop (64 * i)).take 64)) h).length = 8 := by
  induction blocks with
  | nil => intro h hh; exact hh
  | cons b rest ih =>
    intro h hh
    exact ih _ (shaCompress_length _ _)

theorem sha256Bytes_length (msg : List Nat) : (sha256Bytes msg).length = 32 := by
  have h8 : (List.foldl (fun h i => shaCompress h (((shaPad msg).drop (64 * i)).take 64))
      sha256IV (List.range ((shaPad msg).length / 64))).length = 8 :=
    foldl_shaCompress_length _ (shaPad msg) sha256IV rfl
  simp only [sha256Bytes]
  rw [wordsToBytes_length, h8]

theorem sha256Bytes_lt (msg : List Nat) : ∀ b ∈ sha256Bytes msg, b < 256 := by
  unfold sha256Bytes
  exact wordsToBytes_lt _

theorem byteListVal_lt : ∀ (l : List Nat), (∀ b ∈ l, b < 256) →
    byteListVal l < 256 ^ l.length := by
  intro l
  induction l with
  | nil => intro _; simp [byteListVal]
  | cons a l ih =>
    intro hb
    have hv := ih (fun x hx => hb x (by simp [hx]))
    have ha : a < 256 := hb a (by simp)
    rw [byteListVal, List.length_cons, pow_succ]
    nlinarith [hv, ha]

theorem byteListVal_inj : ∀ (l1 l2 : List Nat), l1.length = l2.length →
    (∀ b ∈ l1, b < 256) → (∀ b ∈ l2, b < 256) →
    byteListVal l1 = byteListVal l2 → l1 = l2 := by
  intro l1
  induction l1 with
  | nil =>
    intro l2 hlen _ _ _
    cases l2 with
    | nil => rfl
    | cons b l2 => simp at hlen
  | cons a l1 ih =>
    intro l2 hlen hb1 hb2 hv
    cases l2 with
    | nil => simp at hlen
    | cons b l2 =>
      rw [byteListVal, byteListVal] at hv
      have ha : a < 256 := hb1 a (by simp)
      have hb : b < 256 := hb2 b (by simp)
      have heq1 : a = b := by omega
      have heq2 : byteListVal l1 = byteListVal l2 := by omega
      rw [heq1]
      have := ih l2 (by simpa using hlen) (fun x hx => hb1 x (by simp [hx]))
        (fun x hx => hb2 x (by simp [hx])) heq2
      rw [this]

theorem flatMap_take_pairs (f : Nat → List Char) (hf : ∀ x, (f x).length = 2) :
    ∀ (k : Nat) (l : List Nat), (l.flatMap f).take (2 * k) = (l.take k).flatMap f := by
  intro k
  induction k with
  | zero => intro l; simp
  | succ k ih =>
    intro l
    cases l with
    | nil => simp
    | cons a rest =>
      rw [List.flatMap_cons, List.take_succ_cons, List.flatMap_cons,
        List.take_append_eq_append_take, List.take_of_length_le (by rw [hf]; omega),
        hf a]
      congr 1
      have : 2 * (k + 1) - 2 = 2 * k := by omega
      rw [this]
      exact ih rest

theorem action_id_digest_form (c : ActionContract) :
    c.action_id = "act_" ++ String.mk (bytesHexChars
      ((sha256Bytes (utf8Bytes c.canonical_json)).take 12)) := by
  unfold ActionContract.action_id sha256Hex strSlice
  congr 1
  show String.mk ((bytesHexChars _).take 24) = _
  congr 1
  have h24 : 24 = 2 * 12 := by norm_num
  rw [bytesHexChars, h24, flatMap_take_pairs byteHexChars (fun x => rfl) 12]
  rfl

/-- C1 counterexample: `action_id` truncates the digest to 24 hex
characters, so ids range over a finite set while contracts (varying any
field, here `intent`) are infinite: by pigeonhole two contracts that
differ in a field share an `action_id`, refuting "any two contracts
differing in any field produce distinct action ids" as a universal
statement. -/
theorem c1_distinct_contracts_id_collision :
    ∃ a b : ActionContract, a ≠ b ∧ a.action_id = b.action_id := by
  obtain ⟨n, m, hnm, heq⟩ :=
    Finite.exists_ne_map_eq_of_infinite (fun n => contractDigestVal (mkIntentContract n))
  refine ⟨mkIntentContract n, mkIntentContract m, ?_, ?_⟩
  · intro h
    apply hnm
    have hint := congrArg ActionContract.intent h
    simp only [mkIntentContract] at hint
    have hlen := congrArg String.length hint
    simpa [String.length] using hlen
  · have hb1 := sha256Bytes_lt (utf8Bytes (mkIntentContract n).canonical_json)
    have hb2 := sha256Bytes_lt (utf8Bytes (mkIntentContract m).canonical_json)
    have hl1 : ((sha256Bytes (utf8Bytes (mkIntentContract n).canonical_json)).take 12).length
        = 12 := by
      rw [List.length_take, sha256Bytes_length]
      omega
    have hl2 : ((sha256Bytes (utf8Bytes (mkIntentContract m).canonical_json)).take 12).length
        = 12 := by
      rw [List.length_take, sha256Bytes_length]
      omega
    have hlt1 : byteListVal ((sha256Bytes (utf8Bytes (mkIntentContract n).canonical_json)).take 12)
        < 256 ^ 12 := by
      have := byteListVal_lt
        ((sha256Bytes (utf8Bytes (mkIntentContract n).canonical_json)).take 12)
        (fun b hb => hb1 b (List.mem_of_mem_take hb))
      rwa [hl1] at this
    have hlt2 : byteListVal ((sha256Bytes (utf8Bytes (mkIntentContract m).canonical_json)).take 12)
        < 256 ^ 12 := by
      have := byteListVal_lt
        ((sha256Bytes (utf8Bytes (mkIntentContract m).canonical_json)).take 12)
        (fun b hb => hb2 b (List.mem_of_mem_take hb))
      rwa [hl2] at this
    have hval := congrArg Fin.val heq
    simp only [contractDigestVal] at hval
    rw [Nat.mod_eq_of_lt hlt1, Nat.mod_eq_of_lt hlt2] at hval
    have hbytes := byteListVal_inj
      ((sha256Bytes (utf8Bytes (mkIntentContract n).canonical_json)).take 12)
      ((sha256Bytes (utf8Bytes (mkIntentContract m).canonical_json)).take 12)
      (hl1.trans hl2.symm)
      (fun b hb => hb1 b (List.mem_of_mem_take hb))
      (fun b hb => hb2 b (List.mem_of_mem_take hb)) hval
    rw [action_id_digest_form, action_id_digest_form, hbytes]

/-- C1 amended: action identity is a function of canonical form --
contracts with equal canonical JSON share an `action_id` -- and ids
separate contracts exactly as far as their truncated digests do: equal
action ids force equal 24-hex-character digest prefixes, so only a
truncated-sha256 collision (which exists by pigeonhole but is
computationally infeasible to exhibit) can identify two differing
contracts. -/
theorem c1_action_identity_amended :
    (∀ a b : ActionContract, a.canonical_json = b.canonical_json →
      a.action_id = b.action_id) ∧
    (∀ a b : ActionContract, a.action_id = b.action_id → a.digest24 = b.digest24) := by
  constructor
  · intro a b h
    unfold ActionContract.action_id
    rw [h]
  · intro a b h
    unfold ActionContract.action_id at h
    have hd : ("act_" ++ a.digest24).data = ("act_" ++ b.digest24).data :=
      congrArg String.data h
    have hsplit : ∀ t : String, ("act_" ++ t).data = "act_".data ++ t.data := fun t => rfl
    rw [hsplit, hsplit] at hd
    have hdata := List.append_cancel_left hd
    calc a.digest24 = String.mk a.digest24.data := rfl
      _ = String.mk b.digest24.data := by rw [hdata]
      _ = b.digest24 := rfl

/-! ### C2 -/

theorem audit_sign_verifies (sk : List Nat) (p : Json) :
    audit_verify_signature sk p (audit_sign sk p) = true := by
  unfold audit_verify_signature audit_sign
  by_cases h : sk = [] <;> simp [h]

theorem violationAt_cons (sk : List Nat) (before : String) (r : AuditRecord)
    (rest : List AuditRecord) (i : Nat) :
    violationAt sk before (r :: rest) (i + 1) = violationAt sk r.record_hash rest i := by
  cases i with
  | zero => simp [violationAt, prevHashAt]
  | succ j => simp [violationAt, prevHashAt]

theorem violationAt_zero_none_iff (sk : List Nat) (before : String) (r : AuditRecord)
    (rest : List AuditRecord) :
    violationAt sk before (r :: rest) 0 = none ↔
      (r.previous_record_hash = before ∧
       compute_record_hash (payload_without_hash r) = r.record_hash ∧
       audit_verify_signature sk (payload_without_hash r) r.signature = true) := by
  simp only [violationAt, prevHashAt, List.get?]
  by_cases h1 : r.previous_record_hash = before
  · by_cases h2 : compute_record_hash (payload_without_hash r) = r.record_hash
    · by_cases h3 : audit_verify_signature sk (payload_without_hash r) r.signature = true
      · simp [h1, h2, h3]
      · simp [h1, h2, h3]
    · simp [h1, h2]
  · simp [h1]

theorem verify_from_ok_iff (sk : List Nat) :
    ∀ (rs : List AuditRecord) (before : String) (idx : Nat),
      (verify_from sk before idx rs = (true, "ok") ↔
        ∀ i, violationAt sk before rs i = none) := by
  intro rs
  induction rs with
  | nil =>
    intro before idx
    constructor
    · intro _ i; simp [violationAt]
    · intro _; rfl
  | cons r rest ih =>
    intro before idx
    unfold verify_from
    by_cases h1 : r.previous_record_hash = before
    · by_cases h2 : compute_record_hash (payload_without_hash r) = r.record_hash
      · by_cases h3 : audit_verify_signature sk (payload_without_hash r) r.signature = true
        · rw [if_neg (by simpa using h1), if_neg (by simpa using h2),
            if_neg (by simpa using h3)]
          rw [ih r.record_hash (idx + 1)]
          constructor
          · intro hall i
            cases i with
            | zero => exact (violationAt_zero_none_iff sk before r rest).mpr ⟨h1, h2, h3⟩
            | succ j => rw [violationAt_cons]; exact hall j
          · intro hall i
            rw [← violationAt_cons sk before]
            exact hall (i + 1)
        · rw [if_neg (by simpa using h1), if_neg (by simpa using h2),
            if_pos (by simpa using h3)]
          constructor
          · intro hcon; exact absurd hcon (by simp)
          · intro hall
            have := (violationAt_zero_none_iff sk before r rest).mp (hall 0)
            exact absurd this.2.2 h3
      · rw [if_neg (by simpa using h1), if_pos (by simpa using h2)]
        constructor
        · intro hcon; exact absurd hcon (by simp)
        · intro hall
          have := (violationAt_zero_none_iff sk before r rest).mp (hall 0)
          exact absurd this.2.1 h2
    · rw [if_pos (by simpa using h1)]
      constructor
      · intro hcon; exact absurd hcon (by simp)
      · intro hall
        have := (violationAt_zero_none_iff sk before r rest).mp (hall 0)
        exact absurd this.1 h1

theorem verify_from_first_violation (sk : List Nat) :
    ∀ (rs : List AuditRecord) (before : String) (idx i : Nat) (v : ChainViolation),
      violationAt sk before rs i = some v →
      (∀ j, j < i → violationAt sk before rs j = none) →
      verify_from sk before idx rs = (false, chainMessage v (idx + i)) := by
  intro rs
  induction rs with
  | nil =>
    intro before idx i v hv _
    simp [violationAt] at hv
  | cons r rest ih =>
    intro before idx i v hv hmin
    cases i with
    | zero =>
      unfold verify_from
      simp only [violationAt, prevHashAt, List.get?] at hv
      by_cases h1 : r.previous_record_hash = before
      · by_cases h2 : compute_record_hash (payload_without_hash r) = r.record_hash
        · by_cases h3 : audit_verify_signature sk (payload_without_hash r) r.signature = true
          · simp [h1, h2, h3] at hv
          · rw [if_neg (by simpa using h1), if_neg (by simpa using h2),
              if_pos (by simpa using h3)]
            simp [h1, h2, h3] at hv
            rw [← hv]
            rfl
        · rw [if_neg (by simpa using h1), if_pos (by simpa using h2)]
          simp [h1, h2] at hv
          rw [← hv]
          rfl
      · rw [if_pos (by simpa using h1)]
        simp [h1] at hv
        rw [← hv]
        rfl
    | succ j =>
      have h0 := (violationAt_zero_none_iff sk before r rest).mp (hmin 0 (by omega))
      unfold verify_from
      rw [if_neg (by simpa using h0.1), if_neg (by simpa using h0.2.1),
        if_neg (by simpa using h0.2.2)]
      have harith : idx + (j + 1) = (idx + 1) + j := by omega
      rw [harith]
      refine ih r.record_hash (idx + 1) j v ?_ ?_
      · rw [← violationAt_cons sk before]
        exact hv
      · intro k hk
        rw [← violationAt_cons sk before]
        exact hmin (k + 1) (by omega)

theorem violationAt_append_lt (sk : List Nat) (before : String) (l1 l2 : List AuditRecord)
    (i : Nat) (h : i < l1.length) :
    violationAt sk before (l1 ++ l2) i = violationAt sk before l1 i := by
  cases i with
  | zero =>
    simp only [violationAt, prevHashAt]
    rw [List.get?_append h]
  | succ j =>
    have e1 : (l1 ++ l2).get? (j + 1) = l1.get? (j + 1) := List.get?_append h
    have e2 : (l1 ++ l2).get? j = l1.get? j := List.get?_append (by omega)
    simp only [violationAt, prevHashAt, e1, e2]

theorem violationAt_none_conditions (sk : List Nat) (before : String)
    (records : List AuditRecord) (i : Nat) (r : AuditRecord)
    (hget : records.get? i = some r)
    (hnone : violationAt sk before records i = none) :
    r.previous_record_hash = prevHashAt before records i ∧
    compute_record_hash (payload_without_hash r) = r.record_hash ∧
    audit_verify_signature sk (payload_without_hash r) r.signature = true := by
  unfold violationAt at hnone
  rw [hget] at hnone
  by_cases h1 : r.previous_record_hash = prevHashAt before records i
  · by_cases h2 : compute_record_hash (payload_without_hash r) = r.record_hash
    · by_cases h3 : audit_verify_signature sk (payload_without_hash r) r.signature = true
      · exact ⟨h1, h2, h3⟩
      · simp [h1, h2, h3] at hnone
    · simp [h1, h2] at hnone
  · simp [h1] at hnone

theorem audit_append_chain_ok (sk : List Nat) (tenant workflow : String) (st : AuditState)
    (inp : AppendInput)
    (hok : ∀ i, violationAt sk "" st.records i = none)
    (hlast : st.last_hash =
      (match st.records.getLast? with | some r => r.record_hash | none => "")) :
    (∀ i, violationAt sk "" (audit_append sk tenant workflow st inp).2.records i = none) ∧
    ((audit_append sk tenant workflow st inp).2.last_hash =
      (match (audit_append sk tenant workflow st inp).2.records.getLast? with
        | some r => r.record_hash | none => "")) := by
  have hrecs : (audit_append sk tenant workflow st inp).2.records =
      st.records ++ [(audit_append sk tenant workflow st inp).1] := rfl
  set rec := (audit_append sk tenant workflow st inp).1 with hrecdef
  have hprevfact : rec.previous_record_hash =
      (if st.last_hash = "" then
        (match st.records.getLast? with | some r => r.record_hash | none => "")
       else st.last_hash) := rfl
  have hprevval : rec.previous_record_hash =
      (match st.records.getLast? with | some r => r.record_hash | none => "") := by
    rw [hprevfact, hlast]
    split <;> rfl
  have hph : prevHashAt "" (st.records ++ [rec]) st.records.length =
      (match st.records.getLast? with | some r => r.record_hash | none => "") := by
    cases hsr : st.records with
    | nil => simp [prevHashAt]
    | cons a rest =>
      simp only [prevHashAt, List.length_cons]
      rw [List.get?_append (by simp)]
      have hg : (a :: rest).getLast? = (a :: rest).get? rest.length := by
        rw [List.getLast?_eq_get?]
        simp
      rw [← hg]
      rcases hlast2 : (a :: rest).getLast? with _ | r
      · simp at hlast2
      · simp
  constructor
  · intro i
    rcases lt_trichotomy i st.records.length with hlt | heq | hgt
    · rw [hrecs, violationAt_append_lt sk "" st.records [rec] i hlt]
      exact hok i
    · subst heq
      have hc1 : rec.previous_record_hash =
          prevHashAt "" (st.records ++ [rec]) st.records.length := by
        rw [hprevval, hph]
      have hc2 : compute_record_hash (payload_without_hash rec) = rec.record_hash := rfl
      have hc3 : audit_verify_signature sk (payload_without_hash rec) rec.signature = true := by
        have hsig : rec.signature = audit_sign sk (payload_without_hash rec) := rfl
        rw [hsig]
        exact audit_sign_verifies sk _
      rw [hrecs]
      unfold violationAt
      rw [List.get?_concat_length]
      simp [hc1, hc2, hc3]
    · rw [hrecs]
      unfold violationAt
      have hnone : (st.records ++ [rec]).get? i = none := by
        rw [List.get?_eq_none]
        simp only [List.length_append, List.length_cons, List.length_nil]
        omega
      rw [hnone]
  · have hlh : (audit_append sk tenant workflow st inp).2.last_hash = rec.record_hash := rfl
    rw [hlh, hrecs, List.getLast?_concat]

theorem audit_append_all_chain_ok (sk : List Nat) (tenant workflow : String)
    (inputs : List AppendInput) :
    ∀ (st : AuditState),
      (∀ i, violationAt sk "" st.records i = none) →
      (st.last_hash =
        (match st.records.getLast? with | some r => r.record_hash | none => "")) →
      (∀ i, violationAt sk ""
        (audit_append_all sk tenant workflow st inputs).records i = none) := by
  induction inputs with
  | nil => intro st hok _; exact hok
  | cons inp rest ih =>
    intro st hok hlast
    have h := audit_append_chain_ok sk tenant workflow st inp hok hlast
    exact ih _ h.1 h.2

/-- C2: an audit log produced by a sequence of appends from a fresh trail
is a hash chain -- record 0 links to `""`, each later record links to
its predecessor's stored `record_hash`, every stored `record_hash` is
the sha256 of the canonical JSON of the record without its
`record_hash`/`signature` fields, and the signature verifies -- and
`verify_chain` accepts exactly the chains satisfying those conditions,
reporting the first violating index (and which check failed there)
otherwise. -/
theorem c2_audit_chain :
    ∀ (sk : List Nat) (tenant workflow : String) (inputs : List AppendInput),
      (∀ i, violationAt sk ""
        (audit_append_all sk tenant workflow {} inputs).records i = none) ∧
      (∀ r0, (audit_append_all sk tenant workflow {} inputs).records.get? 0 = some r0 →
        r0.previous_record_hash = "") ∧
      (∀ i r r', (audit_append_all sk tenant workflow {} inputs).records.get? i = some r →
        (audit_append_all sk tenant workflow {} inputs).records.get? (i + 1) = some r' →
        r'.previous_record_hash = r.record_hash) ∧
      (∀ i r, (audit_append_all sk tenant workflow {} inputs).records.get? i = some r →
        compute_record_hash (payload_without_hash r) = r.record_hash) ∧
      verify_chain sk (audit_append_all sk tenant workflow {} inputs).records =
        (true, "ok") ∧
      (∀ records, verify_chain sk records = (true, "ok") ↔
        ∀ i, violationAt sk "" records i = none) ∧
      (∀ records i v, violationAt sk "" records i = some v →
        (∀ j, j < i → violationAt sk "" records j = none) →
        verify_chain sk records = (false, chainMessage v i)) := by
  intro sk tenant workflow inputs
  have hall := audit_append_all_chain_ok sk tenant workflow inputs {}
    (fun i => by simp [violationAt]) rfl
  refine ⟨hall, ?_, ?_, ?_, ?_, ?_, ?_⟩
  · intro r0 hget
    have h := violationAt_none_conditions sk "" _ 0 r0 hget (hall 0)
    simpa [prevHashAt] using h.1
  · intro i r r' hget hget'
    have h := violationAt_none_conditions sk "" _ (i + 1) r' hget' (hall (i + 1))
    have hp : prevHashAt "" (audit_append_all sk tenant workflow {} inputs).records (i + 1) =
        r.record_hash := by
      have hg2 : (audit_append_all sk tenant workflow {} inputs).records[i]? = some r := by
        rw [← List.get?_eq_getElem?]
        exact hget
      simp [prevHashAt, hg2]
    rw [← hp]
    exact h.1
  · intro i r hget
    exact (violationAt_none_conditions sk "" _ i r hget (hall i)).2.1
  · exact (verify_from_ok_iff sk _ "" 0).mpr hall
  · intro records
    exact verify_from_ok_iff sk records "" 0
  · intro records i v hv hmin
    have := verify_from_first_violation sk records "" 0 i v hv hmin
    simpa using this
